import Mathlib

/-!
# DHT11 one-wire sensor driver for STM32F3 (`DHT.h`, `DHT.c`)

A shallow embedding of the driver and the properties checked against it.

Modelling conventions.

* Machine integers are natural numbers; 32-bit register arithmetic is written
  with explicit `% 2^32`, the `uint16_t` pulse width with `% 2^16`, bytes with
  `% 256`.
* The memory-mapped peripherals are an explicit `Hardware` record that every
  function takes and returns.
* The two registers driven by the outside world (the GPIO input data register
  `IDR`, and the timer counter `CNT` while the counter runs) are answered by a
  `Trace`: the value seen by the k-th read of `IDR`, and the value seen by the
  k-th read of `CNT`.  The `Hardware` record counts the reads made so far.
* Pointers that the code compares with `NULL` are `Option`s.
* The two busy-wait loops of `DHT_ReadBits` have no bound in the source; they
  are given a fuel argument (the largest number of polls a single wait may
  take) and return `none` when it runs out.
-/

namespace DHT

/-! ## `DHT.h` -/

def DHT_DATA_LEN_BYTES : Nat := 5

def DHT_PRESCALER : Nat := 63

def DHT_THRESHOLD_TICKS : Nat := 2000

def DHT_DEFAULT_TIMEOUT : Nat := 100000

/-- Status codes of `DHT_Status_t`. -/
inductive DHT_Status_t where
  | DHT_OK
  | DHT_ERROR_INVALID_CONFIG
  | DHT_ERROR_TIMEOUT
  | DHT_ERROR_CHECKSUM
  | DHT_ERROR_INIT_FAILED
  deriving DecidableEq, Repr

open DHT_Status_t

/-- Numeric value of each enumerator of `DHT_Status_t`. -/
def DHT_Status_t.code : DHT_Status_t → Int
  | DHT_OK => 0
  | DHT_ERROR_INVALID_CONFIG => -1
  | DHT_ERROR_TIMEOUT => -2
  | DHT_ERROR_CHECKSUM => -3
  | DHT_ERROR_INIT_FAILED => -4

/-- Enumerators of `DHT_GPIO_Port_t` (a C enum: any integer can be stored in it). -/
def DHT_GPIO_PORT_A : Nat := 0

def DHT_GPIO_PORT_B : Nat := 1

def DHT_GPIO_PORT_F : Nat := 2

/-- Enumerators of `DHT_Timer_t`. -/
def DHT_TIMER_3 : Nat := 0

def DHT_TIMER_7 : Nat := 1

def DHT_TIMER_15 : Nat := 2

def DHT_TIMER_16 : Nat := 3

def DHT_TIMER_17 : Nat := 4

/-- The struct `DHT_Config_t`. `pin` is a `uint16_t`, `timeout_cycles` a `uint32_t`;
the two enum fields hold the raw enumerator value. -/
structure DHT_Config_t where
  gpio_port : Nat
  pin : Nat
  timer : Nat
  timeout_cycles : Nat
  deriving DecidableEq, Repr

/-! ## Peripherals -/

/-- Modelled from the spec: the register block type `GPIO_TypeDef` is declared in the
vendor header `stm32f3xx.h`, which is not part of the repository; the spec describes
the pin capability as set high, set low, read, set mode and open-drain configuration.
The record holds the registers the driver writes, each 32 bits wide; the input data
register `IDR` is answered by the trace. -/
structure GPIO_TypeDef where
  MODER : Nat
  OTYPER : Nat
  ODR : Nat
  deriving DecidableEq, Repr

/-- Modelled from the spec: the register block type `TIM_TypeDef` is declared in the
vendor header `stm32f3xx.h`, which is not part of the repository; the spec describes
the timer capability as start, stop, reset counter and a 32-bit counter read
(`read_counter() -> u32`).  The record holds the registers the driver writes. -/
structure TIM_TypeDef where
  CR1 : Nat
  PSC : Nat
  ARR : Nat
  DIER : Nat
  CNT : Nat
  deriving DecidableEq, Repr

/-- Modelled from the spec: the vendor clock-enable macros
(`__HAL_RCC_GPIOA_CLK_ENABLE` and its siblings) are not part of the repository; the
spec calls the operation `enable_clock()`.  Each peripheral has one enable flag. -/
structure RCC_TypeDef where
  gpioaen : Bool
  gpioben : Bool
  gpiofen : Bool
  tim3en : Bool
  tim7en : Bool
  tim15en : Bool
  tim16en : Bool
  tim17en : Bool
  deriving DecidableEq, Repr

/-- The GPIO register blocks `GPIOA`, `GPIOB`, `GPIOF`. -/
inductive GPIO_Block where
  | GPIOA
  | GPIOB
  | GPIOF
  deriving DecidableEq, Repr

/-- The timer register blocks `TIM3`, `TIM7`, `TIM15`, `TIM16`, `TIM17`. -/
inductive TIM_Block where
  | TIM3
  | TIM7
  | TIM15
  | TIM16
  | TIM17
  deriving DecidableEq, Repr

open GPIO_Block TIM_Block

/-- All hardware state the driver touches, with the number of `IDR` reads (`polls`)
and of `CNT` reads (`samples`) made so far. -/
structure Hardware where
  gpioa : GPIO_TypeDef
  gpiob : GPIO_TypeDef
  gpiof : GPIO_TypeDef
  tim3 : TIM_TypeDef
  tim7 : TIM_TypeDef
  tim15 : TIM_TypeDef
  tim16 : TIM_TypeDef
  tim17 : TIM_TypeDef
  rcc : RCC_TypeDef
  polls : Nat
  samples : Nat
  deriving DecidableEq, Repr

/-- What the outside world answers: `idr k` is the 32-bit value of the k-th read of
the port's input data register, `cnt k` the value of the k-th read of the timer's
counter register. -/
structure Trace where
  idr : Nat → Nat
  cnt : Nat → Nat

def Hardware.gpio (hw : Hardware) : GPIO_Block → GPIO_TypeDef
  | GPIOA => hw.gpioa
  | GPIOB => hw.gpiob
  | GPIOF => hw.gpiof

def Hardware.setGpio (hw : Hardware) (b : GPIO_Block) (g : GPIO_TypeDef) : Hardware :=
  match b with
  | GPIOA => { hw with gpioa := g }
  | GPIOB => { hw with gpiob := g }
  | GPIOF => { hw with gpiof := g }

def Hardware.tim (hw : Hardware) : TIM_Block → TIM_TypeDef
  | TIM3 => hw.tim3
  | TIM7 => hw.tim7
  | TIM15 => hw.tim15
  | TIM16 => hw.tim16
  | TIM17 => hw.tim17

def Hardware.setTim (hw : Hardware) (b : TIM_Block) (t : TIM_TypeDef) : Hardware :=
  match b with
  | TIM3 => { hw with tim3 := t }
  | TIM7 => { hw with tim7 := t }
  | TIM15 => { hw with tim15 := t }
  | TIM16 => { hw with tim16 := t }
  | TIM17 => { hw with tim17 := t }

def Hardware.setPolls (hw : Hardware) (p : Nat) : Hardware :=
  { hw with polls := p }

def Hardware.setSamples (hw : Hardware) (k : Nat) : Hardware :=
  { hw with samples := k }

def Hardware.setRcc (hw : Hardware) (r : RCC_TypeDef) : Hardware :=
  { hw with rcc := r }

/-! ## Macros of `DHT.c` -/

/-- Bitwise complement of a 32-bit value (`~x` on `uint32_t`). -/
def not32 (x : Nat) : Nat := (2 ^ 32 - 1) ^^^ (x % 2 ^ 32)

/-- The 32-bit value of `c << s` for an unsigned constant `c`. -/
def shl32 (c s : Nat) : Nat := (c <<< s) % 2 ^ 32

/-- `DHT_GPIO_SET_BIT(port, pin)`: `ODR |= (1U << pin)`. -/
def DHT_GPIO_SET_BIT (g : GPIO_TypeDef) (pin : Nat) : GPIO_TypeDef :=
  { g with ODR := g.ODR ||| shl32 1 pin }

/-- `DHT_GPIO_CLEAR_BIT(port, pin)`: `ODR &= ~(1U << pin)`. -/
def DHT_GPIO_CLEAR_BIT (g : GPIO_TypeDef) (pin : Nat) : GPIO_TypeDef :=
  { g with ODR := g.ODR &&& not32 (shl32 1 pin) }

/-- `DHT_GPIO_READ_BIT(port, pin)` applied to the value `idr` just read from `IDR`. -/
def DHT_GPIO_READ_BIT (idr pin : Nat) : Nat :=
  if idr &&& shl32 1 pin ≠ 0 then 1 else 0

def DHT_TIMER_CEN_BIT : Nat := 0

def DHT_TIMER_UIE_BIT : Nat := 0

/-- `DHT_TIMER_ENABLE(timer)`: `CR1 |= (1U << DHT_TIMER_CEN_BIT)`. -/
def DHT_TIMER_ENABLE (t : TIM_TypeDef) : TIM_TypeDef :=
  { t with CR1 := t.CR1 ||| shl32 1 DHT_TIMER_CEN_BIT }

/-- `DHT_TIMER_DISABLE(timer)`: `CR1 &= ~(1U << DHT_TIMER_CEN_BIT)`. -/
def DHT_TIMER_DISABLE (t : TIM_TypeDef) : TIM_TypeDef :=
  { t with CR1 := t.CR1 &&& not32 (shl32 1 DHT_TIMER_CEN_BIT) }

/-- `DHT_TIMER_RESET_COUNT(timer)`: `CNT = 0`. -/
def DHT_TIMER_RESET_COUNT (t : TIM_TypeDef) : TIM_TypeDef :=
  { t with CNT := 0 }

def DHT_TIMER_ENABLE_UPDATE_INT : Nat := 1 <<< DHT_TIMER_UIE_BIT

def DHT_GPIO_MODER_INPUT : Nat := 0

def DHT_GPIO_MODER_OUTPUT : Nat := 1

def DHT_GPIO_MODER_BITS_PER_PIN : Nat := 2

def DHT_GPIO_OTYPER_OPEN_DRAIN : Nat := 1

def DHT_GPIO_MODER_SHIFT (pin : Nat) : Nat := pin * DHT_GPIO_MODER_BITS_PER_PIN

def DHT_GPIO_MODER_MASK (pin : Nat) : Nat := shl32 3 (DHT_GPIO_MODER_SHIFT pin)

def DHT_GPIO_OTYPER_SHIFT (pin : Nat) : Nat := pin

def DHT_START_SIGNAL_DELAY_MS : Nat := 20

/-! ## Helper functions of `DHT.c` -/

/-- `DHT_GetGPIOPort`: `none` is the `NULL` of the `default` branch. -/
def DHT_GetGPIOPort (port : Nat) : Option GPIO_Block :=
  if port = DHT_GPIO_PORT_A then some GPIOA
  else if port = DHT_GPIO_PORT_B then some GPIOB
  else if port = DHT_GPIO_PORT_F then some GPIOF
  else none

/-- `DHT_GetTimerInstance`: `none` is the `NULL` of the `default` branch. -/
def DHT_GetTimerInstance (timer : Nat) : Option TIM_Block :=
  if timer = DHT_TIMER_3 then some TIM3
  else if timer = DHT_TIMER_7 then some TIM7
  else if timer = DHT_TIMER_15 then some TIM15
  else if timer = DHT_TIMER_16 then some TIM16
  else if timer = DHT_TIMER_17 then some TIM17
  else none

/-- `DHT_EnableGPIOClock`: the switch has no `default`, other values do nothing. -/
def DHT_EnableGPIOClock (port : Nat) (r : RCC_TypeDef) : RCC_TypeDef :=
  if port = DHT_GPIO_PORT_A then { r with gpioaen := true }
  else if port = DHT_GPIO_PORT_B then { r with gpioben := true }
  else if port = DHT_GPIO_PORT_F then { r with gpiofen := true }
  else r

/-- `DHT_EnableTimerClock`: the switch has no `default`, other values do nothing. -/
def DHT_EnableTimerClock (timer : Nat) (r : RCC_TypeDef) : RCC_TypeDef :=
  if timer = DHT_TIMER_3 then { r with tim3en := true }
  else if timer = DHT_TIMER_7 then { r with tim7en := true }
  else if timer = DHT_TIMER_15 then { r with tim15en := true }
  else if timer = DHT_TIMER_16 then { r with tim16en := true }
  else if timer = DHT_TIMER_17 then { r with tim17en := true }
  else r

/-- `DHT_ValidateConfig`. -/
def DHT_ValidateConfig (config : Option DHT_Config_t) : DHT_Status_t :=
  match config with
  | none => DHT_ERROR_INVALID_CONFIG
  | some c =>
    if c.pin > 15 then DHT_ERROR_INVALID_CONFIG
    else if c.timeout_cycles = 0 then DHT_ERROR_INVALID_CONFIG
    else DHT_OK

/-- Modelled from the spec: `osDelay` belongs to the RTOS and is not part of the
repository; the spec calls it a blocking delay primitive `delay_ms`.  It changes no
register of the model. -/
def osDelay (_ms : Nat) (g : GPIO_TypeDef) : GPIO_TypeDef := g

/-- `DHT_SendStartSignal`. -/
def DHT_SendStartSignal (g : GPIO_TypeDef) (pin : Nat) : GPIO_TypeDef :=
  DHT_GPIO_SET_BIT (osDelay DHT_START_SIGNAL_DELAY_MS (DHT_GPIO_CLEAR_BIT g pin)) pin

/-- `DHT_Init`. -/
def DHT_Init (config : Option DHT_Config_t) (hw : Hardware) : DHT_Status_t × Hardware :=
  if DHT_ValidateConfig config ≠ DHT_OK then (DHT_ERROR_INVALID_CONFIG, hw)
  else
    match config with
    | none => (DHT_ERROR_INVALID_CONFIG, hw)
    | some c =>
      match DHT_GetGPIOPort c.gpio_port, DHT_GetTimerInstance c.timer with
      | some port, some timer =>
        let hw1 := hw.setRcc (DHT_EnableGPIOClock c.gpio_port hw.rcc)
        let hw2 := hw1.setRcc (DHT_EnableTimerClock c.timer hw1.rcc)
        let g1 := DHT_GPIO_SET_BIT (hw2.gpio port) c.pin
        let g2 := { g1 with
          OTYPER := g1.OTYPER ||| shl32 DHT_GPIO_OTYPER_OPEN_DRAIN (DHT_GPIO_OTYPER_SHIFT c.pin) }
        let g3 := { g2 with MODER := g2.MODER &&& not32 (DHT_GPIO_MODER_MASK c.pin) }
        let g4 := { g3 with
          MODER := g3.MODER ||| shl32 DHT_GPIO_MODER_OUTPUT (DHT_GPIO_MODER_SHIFT c.pin) }
        let hw3 := hw2.setGpio port g4
        let t0 := hw3.tim timer
        let t1 := { t0 with CR1 := 0 }
        let t2 := { t1 with PSC := DHT_PRESCALER }
        let t3 := { t2 with ARR := 0xFFFF }
        let t4 := { t3 with DIER := t3.DIER ||| DHT_TIMER_ENABLE_UPDATE_INT }
        (DHT_OK, hw3.setTim timer t4)
      | _, _ => (DHT_ERROR_INVALID_CONFIG, hw)

/-- The loop `while (DHT_GPIO_READ_BIT(port, pin) == level && timeout--);` started
with the given value of `timeout` at read position `p`.  Returns the value of
`timeout` after the loop and the read position after the loop.  The loop reads the
pin first; only when the pin still shows `level` is `timeout--` evaluated: it tests
the old value and decrements, so a `timeout` of 0 ends the loop and wraps to
`2^32 - 1`. -/
def waitWhile (tr : Trace) (pin level : Nat) : Nat → Nat → Nat × Nat
  | 0, p =>
    if DHT_GPIO_READ_BIT (tr.idr p) pin = level then (2 ^ 32 - 1, p + 1) else (0, p + 1)
  | t + 1, p =>
    if DHT_GPIO_READ_BIT (tr.idr p) pin = level then waitWhile tr pin level t (p + 1)
    else (t + 1, p + 1)

/-- `DHT_WaitForResponse`. -/
def DHT_WaitForResponse (tr : Trace) (hw : Hardware) (pin timeout_cycles : Nat) :
    DHT_Status_t × Hardware :=
  let r1 := waitWhile tr pin 1 timeout_cycles hw.polls
  if r1.1 = 0 then (DHT_ERROR_TIMEOUT, hw.setPolls r1.2)
  else
    let r2 := waitWhile tr pin 0 timeout_cycles r1.2
    if r2.1 = 0 then (DHT_ERROR_TIMEOUT, hw.setPolls r2.2)
    else
      let r3 := waitWhile tr pin 1 timeout_cycles r2.2
      if r3.1 = 0 then (DHT_ERROR_TIMEOUT, hw.setPolls r3.2)
      else (DHT_OK, hw.setPolls r3.2)

/-- The loop `while (DHT_GPIO_READ_BIT(port, pin) == level);` from read position `p`:
the read position after the loop, or `none` when `fuel` polls all showed `level`. -/
def spinWhile (tr : Trace) (pin level : Nat) : Nat → Nat → Option Nat
  | 0, _ => none
  | fuel + 1, p =>
    if DHT_GPIO_READ_BIT (tr.idr p) pin = level then spinWhile tr pin level fuel (p + 1)
    else some (p + 1)

/-- One pass of the body of the 40-bit loop of `DHT_ReadBits` for bit index `i`. -/
def readBit (tr : Trace) (fuel : Nat) (timer : TIM_Block) (pin i : Nat)
    (data : List Nat) (hw : Hardware) : Option (List Nat × Hardware) :=
  let hw1 := hw.setTim timer (DHT_TIMER_RESET_COUNT (hw.tim timer))
  match spinWhile tr pin 0 fuel hw1.polls with
  | none => none
  | some p1 =>
    let hw2 := hw1.setPolls p1
    let hw3 := hw2.setTim timer (DHT_TIMER_ENABLE (hw2.tim timer))
    match spinWhile tr pin 1 fuel hw3.polls with
    | none => none
    | some p2 =>
      let hw4 := hw3.setPolls p2
      let hw5 := hw4.setTim timer (DHT_TIMER_DISABLE (hw4.tim timer))
      let cnt := tr.cnt hw5.samples % 2 ^ 32
      let hw6 := (hw5.setTim timer { hw5.tim timer with CNT := cnt }).setSamples (hw5.samples + 1)
      let pulse_width := cnt % 2 ^ 16
      if pulse_width > DHT_THRESHOLD_TICKS then
        some (data.set (i / 8) ((data.getD (i / 8) 0 ||| (1 <<< (7 - i % 8))) % 256), hw6)
      else some (data, hw6)

/-- The loop `for (i = ...; i < 40; i++)` of `DHT_ReadBits` with `n` passes left,
the next one for bit index `i`. -/
def readBitsLoop (tr : Trace) (fuel : Nat) (timer : TIM_Block) (pin : Nat) :
    Nat → Nat → List Nat → Hardware → Option (List Nat × Hardware)
  | 0, _, data, hw => some (data, hw)
  | n + 1, i, data, hw =>
    match readBit tr fuel timer pin i data hw with
    | none => none
    | some (data1, hw1) => readBitsLoop tr fuel timer pin n (i + 1) data1 hw1

/-- The loop `for (i = 0; i < DHT_DATA_LEN_BYTES; i++) data[i] = 0;`. -/
def clearData (data : List Nat) : List Nat :=
  (List.range DHT_DATA_LEN_BYTES).foldl (fun d i => d.set i 0) data

/-- `DHT_ReadBits` (its parameter `timeout_cycles` is unused in the source). -/
def DHT_ReadBits (tr : Trace) (fuel : Nat) (timer : TIM_Block) (pin _timeout_cycles : Nat)
    (data : List Nat) (hw : Hardware) : Option (DHT_Status_t × List Nat × Hardware) :=
  match readBitsLoop tr fuel timer pin 40 0 (clearData data) hw with
  | none => none
  | some (data1, hw1) => some (DHT_OK, data1, hw1)

/-- `DHT_CalculateChecksum`: the sum is stored in a `uint16_t`, masked with `0xFF` and
cast to `uint8_t`. -/
def DHT_CalculateChecksum (data : List Nat) : Nat :=
  let sum := (data.getD 0 0 + data.getD 1 0 + data.getD 2 0 + data.getD 3 0) % 2 ^ 16
  (sum &&& 0xFF) % 256

/-- `GetDHTData`.  The caller's buffer is returned with the status and the
hardware state; `none` means a busy-wait of `DHT_ReadBits` outlasted the fuel. -/
def GetDHTData (tr : Trace) (fuel : Nat) (config : Option DHT_Config_t)
    (data : Option (List Nat)) (hw : Hardware) :
    Option (DHT_Status_t × Option (List Nat) × Hardware) :=
  match config, data with
  | some c, some buf =>
    match DHT_GetGPIOPort c.gpio_port, DHT_GetTimerInstance c.timer with
    | some port, some timer =>
      let hw1 := hw.setGpio port (DHT_SendStartSignal (hw.gpio port) c.pin)
      let g1 := hw1.gpio port
      let hw2 := hw1.setGpio port { g1 with MODER := g1.MODER &&& not32 (DHT_GPIO_MODER_MASK c.pin) }
      match DHT_WaitForResponse tr hw2 c.pin c.timeout_cycles with
      | (DHT_OK, hw3) =>
        match DHT_ReadBits tr fuel timer c.pin c.timeout_cycles buf hw3 with
        | none => none
        | some (DHT_OK, buf1, hw4) =>
          let checksum := DHT_CalculateChecksum buf1
          if checksum ≠ buf1.getD 4 0 then some (DHT_ERROR_CHECKSUM, some buf1, hw4)
          else
            let g2 := hw4.gpio port
            let g3 := { g2 with MODER := g2.MODER &&& not32 (DHT_GPIO_MODER_MASK c.pin) }
            let g4 := { g3 with
              MODER := g3.MODER ||| shl32 DHT_GPIO_MODER_OUTPUT (DHT_GPIO_MODER_SHIFT c.pin) }
            some (DHT_OK, some buf1, hw4.setGpio port (DHT_GPIO_SET_BIT g4 c.pin))
        | some (status, buf1, hw4) => some (status, some buf1, hw4)
      | (status, hw3) => some (status, some buf, hw3)
    | _, _ => some (DHT_ERROR_INVALID_CONFIG, data, hw)
  | _, _ => some (DHT_ERROR_INVALID_CONFIG, data, hw)

/-! ## Trace shapes used to state the properties -/

/-- From read position `p` the pin reads `level` at each of the next `k` polls and the
other level at the poll after them. -/
def levelFor (tr : Trace) (pin level p k : Nat) : Prop :=
  (∀ j, j < k → DHT_GPIO_READ_BIT (tr.idr (p + j)) pin = level) ∧
    DHT_GPIO_READ_BIT (tr.idr (p + k)) pin ≠ level

instance (tr : Trace) (pin level p k : Nat) : Decidable (levelFor tr pin level p k) := by
  unfold levelFor
  infer_instance

/-- A train of `n` bit pulses starting at read position `p`, the first for bit index
`i`: before pulse `i` the pin reads low for `lo i` polls, then high for one poll (the
rising edge that ends the first busy-wait) and `hi i` further polls, then low. -/
def pulseTrain (tr : Trace) (pin : Nat) (lo hi : Nat → Nat) : Nat → Nat → Nat → Prop
  | 0, _, _ => True
  | n + 1, i, p =>
    levelFor tr pin 0 p (lo i) ∧ levelFor tr pin 1 (p + lo i + 1) (hi i) ∧
      pulseTrain tr pin lo hi n (i + 1) (p + lo i + hi i + 2)

instance pulseTrainDecidable (tr : Trace) (pin : Nat) (lo hi : Nat → Nat) :
    (n i p : Nat) → Decidable (pulseTrain tr pin lo hi n i p)
  | 0, _, _ => isTrue trivial
  | n + 1, i, p =>
    have := pulseTrainDecidable tr pin lo hi n (i + 1) (p + lo i + hi i + 2)
    inferInstanceAs (Decidable (levelFor tr pin 0 p (lo i) ∧
      levelFor tr pin 1 (p + lo i + 1) (hi i) ∧
      pulseTrain tr pin lo hi n (i + 1) (p + lo i + hi i + 2)))

/-- The bit that `DHT_ReadBits` derives from the k-th counter read: the counter value
is truncated to the `uint16_t` `pulse_width` and compared with the threshold. -/
def sampledBit (tr : Trace) (k : Nat) : Bool :=
  decide (tr.cnt k % 2 ^ 32 % 2 ^ 16 > DHT_THRESHOLD_TICKS)

/-- The update `data[i / 8] |= (1 << (7 - (i % 8)))`, applied when `b` holds. -/
def orBit (data : List Nat) (i : Nat) (b : Bool) : List Nat :=
  if b then data.set (i / 8) ((data.getD (i / 8) 0 ||| (1 <<< (7 - i % 8))) % 256) else data

/-- The effect of `n` passes of the bit loop on the buffer, for the bits `c s`,
`c (s + 1)`, ... written at bit indices `i`, `i + 1`, ... -/
def packLoop (c : Nat → Bool) : Nat → Nat → Nat → List Nat → List Nat
  | 0, _, _, d => d
  | n + 1, i, s, d => packLoop c n (i + 1) (s + 1) (orBit d i (c s))

/-- The byte whose bits are `b0` (most significant) to `b7`. -/
def byteOf (b0 b1 b2 b3 b4 b5 b6 b7 : Bool) : Nat :=
  b0.toNat * 128 + b1.toNat * 64 + b2.toNat * 32 + b3.toNat * 16 + b4.toNat * 8 +
    b5.toNat * 4 + b6.toNat * 2 + b7.toNat

/-- The five bytes obtained by packing the bits `c s .. c (s + 39)` most significant
bit first, in transaction order. -/
def packedBytes (c : Nat → Bool) (s : Nat) : List Nat :=
  [byteOf (c s) (c (s + 1)) (c (s + 2)) (c (s + 3)) (c (s + 4)) (c (s + 5)) (c (s + 6)) (c (s + 7)),
   byteOf (c (s + 8)) (c (s + 9)) (c (s + 10)) (c (s + 11)) (c (s + 12)) (c (s + 13)) (c (s + 14))
     (c (s + 15)),
   byteOf (c (s + 16)) (c (s + 17)) (c (s + 18)) (c (s + 19)) (c (s + 20)) (c (s + 21))
     (c (s + 22)) (c (s + 23)),
   byteOf (c (s + 24)) (c (s + 25)) (c (s + 26)) (c (s + 27)) (c (s + 28)) (c (s + 29))
     (c (s + 30)) (c (s + 31)),
   byteOf (c (s + 32)) (c (s + 33)) (c (s + 34)) (c (s + 35)) (c (s + 36)) (c (s + 37))
     (c (s + 38)) (c (s + 39))]

/-! ## Auxiliary definitions and concrete inputs -/

/-- The update of `orBit` seen on the one byte it touches, `j` the bit index within
the byte. -/
def orByte (x j : Nat) (b : Bool) : Nat :=
  if b then (x ||| (1 <<< (7 - j))) % 256 else x

/-- All registers zero, no read made yet. -/
def idleHardware : Hardware :=
  { gpioa := ⟨0, 0, 0⟩, gpiob := ⟨0, 0, 0⟩, gpiof := ⟨0, 0, 0⟩,
    tim3 := ⟨0, 0, 0, 0, 0⟩, tim7 := ⟨0, 0, 0, 0, 0⟩, tim15 := ⟨0, 0, 0, 0, 0⟩,
    tim16 := ⟨0, 0, 0, 0, 0⟩, tim17 := ⟨0, 0, 0, 0, 0⟩,
    rcc := ⟨false, false, false, false, false, false, false, false⟩,
    polls := 0, samples := 0 }

/-- Port A, pin 3, timer 3, a budget of 5 polls per handshake phase. -/
def sensorConfig : DHT_Config_t :=
  { gpio_port := DHT_GPIO_PORT_A, pin := 3, timer := DHT_TIMER_3, timeout_cycles := 5 }

/-- The same sensor with a budget of one poll per handshake phase. -/
def hastyConfig : DHT_Config_t :=
  { gpio_port := DHT_GPIO_PORT_A, pin := 3, timer := DHT_TIMER_3, timeout_cycles := 1 }

/-- The hardware after a successful `DHT_Init` of `sensorConfig`. -/
def readyHardware : Hardware := (DHT_Init (some sensorConfig) idleHardware).2

/-- A line that reads low at even reads and high at odd reads (on all sixteen pins). -/
def squareLine (p : Nat) : Nat := if p % 2 = 1 then 0xFFFF else 0

/-- Handshake at once, then forty pulses; bits 7 and 39 are long pulses: the bytes are
1, 0, 0, 0, 1, a valid checksum. -/
def goodTrace : Trace :=
  { idr := squareLine, cnt := fun k => if k = 7 ∨ k = 39 then 3000 else 100 }

/-- As `goodTrace` with only bit 39 long: the bytes are 0, 0, 0, 0, 1, a wrong checksum. -/
def corruptTrace : Trace :=
  { idr := squareLine, cnt := fun k => if k = 39 then 3000 else 100 }

/-- As `goodTrace` with short pulses only, except that the first counter read gives
65536. -/
def wideTrace : Trace :=
  { idr := squareLine, cnt := fun k => if k = 0 then 65536 else 100 }

/-- A line that stays high forever. -/
def stuckHighTrace : Trace :=
  { idr := fun _ => 0xFFFF, cnt := fun _ => 100 }

/-- A line that is high for the first three reads and only then starts to toggle. -/
def sluggishTrace : Trace :=
  { idr := fun p => if p < 3 then 0xFFFF else if p % 2 = 0 then 0xFFFF else 0,
    cnt := fun _ => 100 }

/-- A line that is high at the first read and low ever after. -/
def lateTrace : Trace :=
  { idr := fun p => if p = 0 then 0xFFFF else 0, cnt := fun _ => 100 }

/-- The hardware after `GetDHTData` has run on `corruptTrace` from `readyHardware`. -/
def corruptRunHardware : Hardware :=
  ((GetDHTData corruptTrace 1 (some sensorConfig) (some [9, 9, 9, 9, 9]) readyHardware).map
    (fun r => r.2.2)).getD idleHardware

/-- The byte `x` with bit `j` flipped. -/
def flipBit (x j : Nat) : Nat := x ^^^ (1 <<< j)

/-! ## Lemmas on the hardware record -/

@[simp]
theorem setTim_polls (hw : Hardware) (b : TIM_Block) (t : TIM_TypeDef) :
    (hw.setTim b t).polls = hw.polls := by
  cases b <;> rfl

@[simp]
theorem setTim_samples (hw : Hardware) (b : TIM_Block) (t : TIM_TypeDef) :
    (hw.setTim b t).samples = hw.samples := by
  cases b <;> rfl

@[simp]
theorem setTim_gpio (hw : Hardware) (b : TIM_Block) (t : TIM_TypeDef) (g : GPIO_Block) :
    (hw.setTim b t).gpio g = hw.gpio g := by
  cases b <;> cases g <;> rfl

@[simp]
theorem setPolls_polls (hw : Hardware) (p : Nat) : (hw.setPolls p).polls = p := rfl

@[simp]
theorem setPolls_samples (hw : Hardware) (p : Nat) : (hw.setPolls p).samples = hw.samples := rfl

@[simp]
theorem setPolls_gpio (hw : Hardware) (p : Nat) (g : GPIO_Block) :
    (hw.setPolls p).gpio g = hw.gpio g := by
  cases g <;> rfl

@[simp]
theorem setSamples_polls (hw : Hardware) (k : Nat) : (hw.setSamples k).polls = hw.polls := rfl

@[simp]
theorem setSamples_samples (hw : Hardware) (k : Nat) : (hw.setSamples k).samples = k := rfl

@[simp]
theorem setSamples_gpio (hw : Hardware) (k : Nat) (g : GPIO_Block) :
    (hw.setSamples k).gpio g = hw.gpio g := by
  cases g <;> rfl

@[simp]
theorem setGpio_polls (hw : Hardware) (b : GPIO_Block) (g : GPIO_TypeDef) :
    (hw.setGpio b g).polls = hw.polls := by
  cases b <;> rfl

@[simp]
theorem setGpio_samples (hw : Hardware) (b : GPIO_Block) (g : GPIO_TypeDef) :
    (hw.setGpio b g).samples = hw.samples := by
  cases b <;> rfl

@[simp]
theorem setGpio_gpio (hw : Hardware) (b : GPIO_Block) (g : GPIO_TypeDef) :
    (hw.setGpio b g).gpio b = g := by
  cases b <;> rfl

/-! ## The polling loops -/

/-- The bounded wait: when the pin leaves `level` after `k` polls and `k` does not
exceed the budget `t`, the loop ends with `t - k` left, `k + 1` reads later. -/
theorem waitWhile_levelFor (tr : Trace) (pin level : Nat) :
    ∀ (t p k : Nat), levelFor tr pin level p k → k ≤ t →
      waitWhile tr pin level t p = (t - k, p + k + 1) := by
  intro t
  induction t with
  | zero =>
    intro p k h hk
    have hk0 : k = 0 := by omega
    subst hk0
    have h2 := h.2
    simp only [Nat.add_zero] at h2
    simp [waitWhile, h2]
  | succ t ih =>
    intro p k h hk
    cases k with
    | zero =>
      have h2 := h.2
      simp only [Nat.add_zero] at h2
      simp [waitWhile, h2]
    | succ k =>
      have h0 : DHT_GPIO_READ_BIT (tr.idr p) pin = level := by
        have := h.1 0 (by omega)
        simpa using this
      have hrest : levelFor tr pin level (p + 1) k := by
        refine ⟨fun j hj => ?_, ?_⟩
        · have := h.1 (j + 1) (by omega)
          rwa [show p + (j + 1) = p + 1 + j by omega] at this
        · have := h.2
          rwa [show p + (k + 1) = p + 1 + k by omega] at this
      have hrec := ih (p + 1) k hrest (by omega)
      simp only [waitWhile, h0, if_true, hrec]
      exact Prod.ext (by simp) (by simp; omega)

/-- The bounded wait when the pin shows `level` at every poll of the budget and at the
one after: `timeout` has wrapped to `2^32 - 1`. -/
theorem waitWhile_stuck (tr : Trace) (pin level : Nat) :
    ∀ (t p : Nat), (∀ j, j ≤ t → DHT_GPIO_READ_BIT (tr.idr (p + j)) pin = level) →
      waitWhile tr pin level t p = (2 ^ 32 - 1, p + t + 1) := by
  intro t
  induction t with
  | zero =>
    intro p h
    have := h 0 (le_refl 0)
    simp only [Nat.add_zero] at this
    simp [waitWhile, this]
  | succ t ih =>
    intro p h
    have h0 := h 0 (by omega)
    simp only [Nat.add_zero] at h0
    have hrec := ih (p + 1) (fun j hj => by
      have := h (j + 1) (by omega)
      rwa [show p + (j + 1) = p + 1 + j by omega] at this)
    simp only [waitWhile, h0, if_true, hrec]
    exact Prod.ext (by simp) (by simp; omega)

/-- The unbounded wait returns once the pin leaves `level`, given enough fuel. -/
theorem spinWhile_levelFor (tr : Trace) (pin level : Nat) :
    ∀ (fuel p k : Nat), levelFor tr pin level p k → k < fuel →
      spinWhile tr pin level fuel p = some (p + k + 1) := by
  intro fuel
  induction fuel with
  | zero => intro p k _ hk; omega
  | succ f ih =>
    intro p k h hk
    cases k with
    | zero =>
      have h2 := h.2
      simp only [Nat.add_zero] at h2
      simp [spinWhile, h2]
    | succ k =>
      have h0 : DHT_GPIO_READ_BIT (tr.idr p) pin = level := by
        have := h.1 0 (by omega)
        simpa using this
      have hrest : levelFor tr pin level (p + 1) k := by
        refine ⟨fun j hj => ?_, ?_⟩
        · have := h.1 (j + 1) (by omega)
          rwa [show p + (j + 1) = p + 1 + j by omega] at this
        · have := h.2
          rwa [show p + (k + 1) = p + 1 + k by omega] at this
      have hrec := ih (p + 1) k hrest (by omega)
      simp only [spinWhile, h0, if_true, hrec]
      congr 1
      omega

/-- The unbounded wait never returns while the pin shows `level` at every poll. -/
theorem spinWhile_stuck (tr : Trace) (pin level : Nat)
    (h : ∀ p, DHT_GPIO_READ_BIT (tr.idr p) pin = level) :
    ∀ (fuel p : Nat), spinWhile tr pin level fuel p = none := by
  intro fuel
  induction fuel with
  | zero => intro p; rfl
  | succ f ih => intro p; simp [spinWhile, h p, ih]

/-! ## The bit loop of `DHT_ReadBits` -/

/-- What one pass of the bit loop leaves behind when it returns. -/
theorem readBit_some (tr : Trace) (fuel : Nat) (timer : TIM_Block) (pin i : Nat)
    (data data1 : List Nat) (hw hw1 : Hardware)
    (h : readBit tr fuel timer pin i data hw = some (data1, hw1)) :
    data1 = orBit data i (sampledBit tr hw.samples) ∧ hw1.samples = hw.samples + 1 ∧
      ∀ g, hw1.gpio g = hw.gpio g := by
  unfold readBit at h
  simp only [setTim_polls, setTim_samples, setPolls_polls, setPolls_samples] at h
  cases h1 : spinWhile tr pin 0 fuel hw.polls with
  | none => simp [h1] at h
  | some p1 =>
    simp only [h1, setTim_polls, setTim_samples, setPolls_polls, setPolls_samples] at h
    cases h2 : spinWhile tr pin 1 fuel p1 with
    | none => simp [h2] at h
    | some p2 =>
      simp only [h2, setTim_polls, setTim_samples, setPolls_polls, setPolls_samples] at h
      by_cases hb : tr.cnt hw.samples % 2 ^ 32 % 2 ^ 16 > DHT_THRESHOLD_TICKS
      · rw [if_pos hb] at h
        simp only [Option.some.injEq, Prod.mk.injEq] at h
        obtain ⟨hd, hh⟩ := h
        subst hd
        subst hh
        refine ⟨?_, by simp, fun g => by simp⟩
        unfold orBit sampledBit
        rw [decide_eq_true hb]
        rfl
      · rw [if_neg hb] at h
        simp only [Option.some.injEq, Prod.mk.injEq] at h
        obtain ⟨hd, hh⟩ := h
        subst hd
        subst hh
        refine ⟨?_, by simp, fun g => by simp⟩
        unfold orBit sampledBit
        rw [decide_eq_false hb]
        rfl

/-- One pass of the bit loop returns when the pulse arrives within the fuel. -/
theorem readBit_returns (tr : Trace) (fuel : Nat) (timer : TIM_Block) (pin i : Nat)
    (data : List Nat) (hw : Hardware) (lo hi : Nat)
    (hlo : levelFor tr pin 0 hw.polls lo) (hhi : levelFor tr pin 1 (hw.polls + lo + 1) hi)
    (hflo : lo < fuel) (hfhi : hi < fuel) :
    ∃ hw1, readBit tr fuel timer pin i data hw =
        some (orBit data i (sampledBit tr hw.samples), hw1) ∧
      hw1.polls = hw.polls + lo + hi + 2 := by
  have h1 := spinWhile_levelFor tr pin 0 fuel hw.polls lo hlo hflo
  have h2 := spinWhile_levelFor tr pin 1 fuel (hw.polls + lo + 1) hi hhi hfhi
  unfold readBit
  simp only [setTim_polls, setTim_samples, setPolls_polls, setPolls_samples, h1, h2]
  by_cases hb : tr.cnt hw.samples % 2 ^ 32 % 2 ^ 16 > DHT_THRESHOLD_TICKS
  · have ho : orBit data i (sampledBit tr hw.samples) =
        data.set (i / 8) ((data.getD (i / 8) 0 ||| (1 <<< (7 - i % 8))) % 256) := by
      unfold orBit sampledBit
      rw [decide_eq_true hb]
      rfl
    rw [if_pos hb, ho]
    exact ⟨_, rfl, by simp; omega⟩
  · have ho : orBit data i (sampledBit tr hw.samples) = data := by
      unfold orBit sampledBit
      rw [decide_eq_false hb]
      rfl
    rw [if_neg hb, ho]
    exact ⟨_, rfl, by simp; omega⟩

/-- The buffer and the sample count after the bit loop, when it returns. -/
theorem readBitsLoop_some (tr : Trace) (fuel : Nat) (timer : TIM_Block) (pin : Nat) :
    ∀ (n i : Nat) (data data1 : List Nat) (hw hw1 : Hardware),
      readBitsLoop tr fuel timer pin n i data hw = some (data1, hw1) →
      data1 = packLoop (sampledBit tr) n i hw.samples data ∧ hw1.samples = hw.samples + n ∧
        ∀ g, hw1.gpio g = hw.gpio g := by
  intro n
  induction n with
  | zero =>
    intro i data data1 hw hw1 h
    simp only [readBitsLoop, Option.some.injEq, Prod.mk.injEq] at h
    obtain ⟨hd, hh⟩ := h
    subst hd
    subst hh
    simp [packLoop]
  | succ n ih =>
    intro i data data1 hw hw1 h
    unfold readBitsLoop at h
    cases hb : readBit tr fuel timer pin i data hw with
    | none => simp [hb] at h
    | some r =>
      obtain ⟨d2, hw2⟩ := r
      simp only [hb] at h
      obtain ⟨hd, hs, hg⟩ := readBit_some tr fuel timer pin i data d2 hw hw2 hb
      obtain ⟨hd1, hs1, hg1⟩ := ih (i + 1) d2 data1 hw2 hw1 h
      refine ⟨?_, by omega, fun g => by rw [hg1, hg]⟩
      rw [hd1, hd, hs]
      rfl

/-- The bit loop returns when every pulse of the train arrives within the fuel. -/
theorem readBitsLoop_returns (tr : Trace) (fuel : Nat) (timer : TIM_Block) (pin : Nat)
    (lo hi : Nat → Nat) :
    ∀ (n i : Nat) (data : List Nat) (hw : Hardware),
      pulseTrain tr pin lo hi n i hw.polls →
      (∀ j, i ≤ j → j < i + n → lo j < fuel ∧ hi j < fuel) →
      ∃ r, readBitsLoop tr fuel timer pin n i data hw = some r := by
  intro n
  induction n with
  | zero =>
    intro i data hw _ _
    exact ⟨_, rfl⟩
  | succ n ih =>
    intro i data hw hp hf
    obtain ⟨hlo, hhi, hrest⟩ := hp
    obtain ⟨hw1, hb, hpolls⟩ := readBit_returns tr fuel timer pin i data hw (lo i) (hi i) hlo hhi
      (hf i (le_refl i) (by omega)).1 (hf i (le_refl i) (by omega)).2
    rw [← hpolls] at hrest
    obtain ⟨r, hr⟩ := ih (i + 1) (orBit data i (sampledBit tr hw.samples)) hw1 hrest
      (fun j h1 h2 => hf j (by omega) (by omega))
    refine ⟨r, ?_⟩
    unfold readBitsLoop
    simp only [hb]
    exact hr

/-! ## Bit packing -/

theorem packLoop_add (c : Nat → Bool) :
    ∀ (m n i s : Nat) (d : List Nat),
      packLoop c (m + n) i s d = packLoop c n (i + m) (s + m) (packLoop c m i s d) := by
  intro m
  induction m with
  | zero => intro n i s d; simp [packLoop]
  | succ m ih =>
    intro n i s d
    rw [show m + 1 + n = (m + n) + 1 by omega]
    simp only [packLoop]
    rw [ih, show i + 1 + m = i + (m + 1) by omega, show s + 1 + m = s + (m + 1) by omega]

theorem orBit_byte0 (x0 x1 x2 x3 x4 i : Nat) (b : Bool) (h : i / 8 = 0) :
    orBit [x0, x1, x2, x3, x4] i b = [orByte x0 (i % 8) b, x1, x2, x3, x4] := by
  unfold orBit orByte
  rw [h]
  cases b <;> rfl

theorem orBit_byte1 (x0 x1 x2 x3 x4 i : Nat) (b : Bool) (h : i / 8 = 1) :
    orBit [x0, x1, x2, x3, x4] i b = [x0, orByte x1 (i % 8) b, x2, x3, x4] := by
  unfold orBit orByte
  rw [h]
  cases b <;> rfl

theorem orBit_byte2 (x0 x1 x2 x3 x4 i : Nat) (b : Bool) (h : i / 8 = 2) :
    orBit [x0, x1, x2, x3, x4] i b = [x0, x1, orByte x2 (i % 8) b, x3, x4] := by
  unfold orBit orByte
  rw [h]
  cases b <;> rfl

theorem orBit_byte3 (x0 x1 x2 x3 x4 i : Nat) (b : Bool) (h : i / 8 = 3) :
    orBit [x0, x1, x2, x3, x4] i b = [x0, x1, x2, orByte x3 (i % 8) b, x4] := by
  unfold orBit orByte
  rw [h]
  cases b <;> rfl

theorem orBit_byte4 (x0 x1 x2 x3 x4 i : Nat) (b : Bool) (h : i / 8 = 4) :
    orBit [x0, x1, x2, x3, x4] i b = [x0, x1, x2, x3, orByte x4 (i % 8) b] := by
  unfold orBit orByte
  rw [h]
  cases b <;> rfl

theorem orByte_pack (b0 b1 b2 b3 b4 b5 b6 b7 : Bool) :
    orByte (orByte (orByte (orByte (orByte (orByte (orByte (orByte 0 0 b0) 1 b1) 2 b2) 3 b3) 4 b4)
      5 b5) 6 b6) 7 b7 = byteOf b0 b1 b2 b3 b4 b5 b6 b7 := by
  revert b0 b1 b2 b3 b4 b5 b6 b7
  decide

theorem packLoop_byte0 (c : Nat → Bool) (s x1 x2 x3 x4 : Nat) :
    packLoop c 8 0 s [0, x1, x2, x3, x4] =
      [byteOf (c s) (c (s + 1)) (c (s + 2)) (c (s + 3)) (c (s + 4)) (c (s + 5))
        (c (s + 6)) (c (s + 7)), x1, x2, x3, x4] := by
  simp only [packLoop, Nat.add_assoc, Nat.reduceAdd]
  simp only [orBit_byte0, Nat.reduceDiv, Nat.reduceMod]
  rw [orByte_pack]

theorem packLoop_byte1 (c : Nat → Bool) (s x0 x2 x3 x4 : Nat) :
    packLoop c 8 8 s [x0, 0, x2, x3, x4] =
      [x0, byteOf (c s) (c (s + 1)) (c (s + 2)) (c (s + 3)) (c (s + 4)) (c (s + 5))
        (c (s + 6)) (c (s + 7)), x2, x3, x4] := by
  simp only [packLoop, Nat.add_assoc, Nat.reduceAdd]
  simp only [orBit_byte1, Nat.reduceDiv, Nat.reduceMod]
  rw [orByte_pack]

theorem packLoop_byte2 (c : Nat → Bool) (s x0 x1 x3 x4 : Nat) :
    packLoop c 8 16 s [x0, x1, 0, x3, x4] =
      [x0, x1, byteOf (c s) (c (s + 1)) (c (s + 2)) (c (s + 3)) (c (s + 4)) (c (s + 5))
        (c (s + 6)) (c (s + 7)), x3, x4] := by
  simp only [packLoop, Nat.add_assoc, Nat.reduceAdd]
  simp only [orBit_byte2, Nat.reduceDiv, Nat.reduceMod]
  rw [orByte_pack]

theorem packLoop_byte3 (c : Nat → Bool) (s x0 x1 x2 x4 : Nat) :
    packLoop c 8 24 s [x0, x1, x2, 0, x4] =
      [x0, x1, x2, byteOf (c s) (c (s + 1)) (c (s + 2)) (c (s + 3)) (c (s + 4)) (c (s + 5))
        (c (s + 6)) (c (s + 7)), x4] := by
  simp only [packLoop, Nat.add_assoc, Nat.reduceAdd]
  simp only [orBit_byte3, Nat.reduceDiv, Nat.reduceMod]
  rw [orByte_pack]

theorem packLoop_byte4 (c : Nat → Bool) (s x0 x1 x2 x3 : Nat) :
    packLoop c 8 32 s [x0, x1, x2, x3, 0] =
      [x0, x1, x2, x3, byteOf (c s) (c (s + 1)) (c (s + 2)) (c (s + 3)) (c (s + 4)) (c (s + 5))
        (c (s + 6)) (c (s + 7))] := by
  simp only [packLoop, Nat.add_assoc, Nat.reduceAdd]
  simp only [orBit_byte4, Nat.reduceDiv, Nat.reduceMod]
  rw [orByte_pack]

/-- Forty passes of the bit loop over a cleared buffer pack the bits most significant
bit first, byte after byte. -/
theorem packLoop_forty (c : Nat → Bool) (s : Nat) :
    packLoop c 40 0 s [0, 0, 0, 0, 0] = packedBytes c s := by
  rw [show (40 : Nat) = 8 + (8 + (8 + (8 + 8))) by rfl]
  rw [packLoop_add, packLoop_add, packLoop_add, packLoop_add]
  simp only [Nat.zero_add, Nat.reduceAdd, Nat.add_assoc]
  rw [packLoop_byte0, packLoop_byte1, packLoop_byte2, packLoop_byte3, packLoop_byte4]
  simp only [packedBytes, Nat.add_assoc, Nat.reduceAdd]

theorem clearData_eq (data : List Nat) (h : data.length = 5) :
    clearData data = [0, 0, 0, 0, 0] := by
  match data, h with
  | [_, _, _, _, _], _ => rfl

theorem byteOf_eq_sum (c : Nat → Bool) (s : Nat) :
    byteOf (c s) (c (s + 1)) (c (s + 2)) (c (s + 3)) (c (s + 4)) (c (s + 5)) (c (s + 6))
        (c (s + 7)) =
      ∑ j in Finset.range 8, (c (s + j)).toNat * 2 ^ (7 - j) := by
  simp [Finset.sum_range_succ, byteOf]

/-! ## `DHT_ReadBits`, `DHT_CalculateChecksum`, `DHT_WaitForResponse` -/

/-- The buffer after `DHT_ReadBits`, whenever it returns. -/
theorem DHT_ReadBits_some (tr : Trace) (fuel : Nat) (timer : TIM_Block) (pin tc : Nat)
    (data : List Nat) (hw : Hardware) (hlen : data.length = 5)
    (st : DHT_Status_t) (data1 : List Nat) (hw1 : Hardware)
    (h : DHT_ReadBits tr fuel timer pin tc data hw = some (st, data1, hw1)) :
    st = DHT_OK ∧ data1 = packedBytes (sampledBit tr) hw.samples ∧
      hw1.samples = hw.samples + 40 ∧ ∀ g, hw1.gpio g = hw.gpio g := by
  unfold DHT_ReadBits at h
  cases hl : readBitsLoop tr fuel timer pin 40 0 (clearData data) hw with
  | none => simp [hl] at h
  | some r =>
    obtain ⟨d2, hw2⟩ := r
    simp only [hl, Option.some.injEq, Prod.mk.injEq] at h
    obtain ⟨hst, hd, hh⟩ := h
    subst hst
    subst hd
    subst hh
    obtain ⟨hd2, hs2, hg2⟩ := readBitsLoop_some tr fuel timer pin 40 0 _ _ hw _ hl
    rw [clearData_eq data hlen, packLoop_forty] at hd2
    exact ⟨rfl, hd2, hs2, hg2⟩

/-- The function `DHT_ReadBits` returns on every trace that carries forty pulses, each
wait within the fuel. -/
theorem DHT_ReadBits_returns (tr : Trace) (fuel : Nat) (timer : TIM_Block) (pin tc : Nat)
    (data : List Nat) (hw : Hardware) (lo hi : Nat → Nat) (hlen : data.length = 5)
    (htrain : pulseTrain tr pin lo hi 40 0 hw.polls)
    (hfuel : ∀ j, j < 40 → lo j < fuel ∧ hi j < fuel) :
    ∃ hw1, DHT_ReadBits tr fuel timer pin tc data hw =
      some (DHT_OK, packedBytes (sampledBit tr) hw.samples, hw1) := by
  obtain ⟨r, hr⟩ := readBitsLoop_returns tr fuel timer pin lo hi 40 0 (clearData data) hw htrain
    (fun j _ h2 => hfuel j (by omega))
  obtain ⟨d2, hw2⟩ := r
  have hrb : DHT_ReadBits tr fuel timer pin tc data hw = some (DHT_OK, d2, hw2) := by
    unfold DHT_ReadBits
    simp only [hr]
  obtain ⟨_, hd, _, _⟩ := DHT_ReadBits_some tr fuel timer pin tc data hw hlen _ _ _ hrb
  exact ⟨hw2, by rw [hrb, hd]⟩

/-- The value of `DHT_CalculateChecksum` is the sum of the first four bytes modulo 256. -/
theorem DHT_CalculateChecksum_eq (data : List Nat) :
    DHT_CalculateChecksum data =
      (data.getD 0 0 + data.getD 1 0 + data.getD 2 0 + data.getD 3 0) % 256 := by
  unfold DHT_CalculateChecksum
  have h := Nat.and_pow_two_sub_one_eq_mod
    ((data.getD 0 0 + data.getD 1 0 + data.getD 2 0 + data.getD 3 0) % 2 ^ 16) 8
  have h255 : (2 : Nat) ^ 8 - 1 = 0xFF := by norm_num
  rw [h255] at h
  simp only [h]
  omega

theorem DHT_WaitForResponse_status (tr : Trace) (hw : Hardware) (pin tc : Nat) :
    (DHT_WaitForResponse tr hw pin tc).1 = DHT_OK ∨
      (DHT_WaitForResponse tr hw pin tc).1 = DHT_ERROR_TIMEOUT := by
  unfold DHT_WaitForResponse
  simp only
  split
  · exact Or.inr rfl
  · split
    · exact Or.inr rfl
    · split
      · exact Or.inr rfl
      · exact Or.inl rfl

theorem DHT_WaitForResponse_hw (tr : Trace) (hw : Hardware) (pin tc : Nat) :
    (DHT_WaitForResponse tr hw pin tc).2.samples = hw.samples ∧
      ∀ g, (DHT_WaitForResponse tr hw pin tc).2.gpio g = hw.gpio g := by
  unfold DHT_WaitForResponse
  simp only
  split
  · exact ⟨rfl, fun g => by simp⟩
  · split
    · exact ⟨rfl, fun g => by simp⟩
    · split
      · exact ⟨rfl, fun g => by simp⟩
      · exact ⟨rfl, fun g => by simp⟩

/-- The handshake succeeds when each awaited level shows up within the budget: after
`k1`, `k2`, `k3` polls of the unwanted level, each fewer than `tc`. -/
theorem DHT_WaitForResponse_ok (tr : Trace) (hw : Hardware) (pin tc k1 k2 k3 : Nat)
    (h1 : levelFor tr pin 1 hw.polls k1) (hk1 : k1 < tc)
    (h2 : levelFor tr pin 0 (hw.polls + k1 + 1) k2) (hk2 : k2 < tc)
    (h3 : levelFor tr pin 1 (hw.polls + k1 + 1 + k2 + 1) k3) (hk3 : k3 < tc) :
    DHT_WaitForResponse tr hw pin tc =
      (DHT_OK, hw.setPolls (hw.polls + k1 + 1 + k2 + 1 + k3 + 1)) := by
  unfold DHT_WaitForResponse
  simp only
  rw [waitWhile_levelFor tr pin 1 tc hw.polls k1 h1 (by omega)]
  simp only
  rw [if_neg (by omega)]
  rw [waitWhile_levelFor tr pin 0 tc _ k2 h2 (by omega)]
  simp only
  rw [if_neg (by omega)]
  rw [waitWhile_levelFor tr pin 1 tc _ k3 h3 (by omega)]
  simp only
  rw [if_neg (by omega)]

/-! ## `GetDHTData` -/

/-- Every way `GetDHTData` can return for a supported port and timer: a timeout with
the buffer untouched, or the forty sampled bits packed into the buffer together with
the verdict of the checksum comparison. -/
theorem GetDHTData_some (tr : Trace) (fuel : Nat) (c : DHT_Config_t) (buf : List Nat)
    (hw : Hardware) (port : GPIO_Block) (timer : TIM_Block)
    (hport : DHT_GetGPIOPort c.gpio_port = some port)
    (htimer : DHT_GetTimerInstance c.timer = some timer) (hlen : buf.length = 5)
    (st : DHT_Status_t) (d : Option (List Nat)) (hw1 : Hardware)
    (h : GetDHTData tr fuel (some c) (some buf) hw = some (st, d, hw1)) :
    (st = DHT_ERROR_TIMEOUT ∧ d = some buf) ∨
      (d = some (packedBytes (sampledBit tr) hw.samples) ∧
        ((st = DHT_OK ∧
            DHT_CalculateChecksum (packedBytes (sampledBit tr) hw.samples) =
              (packedBytes (sampledBit tr) hw.samples).getD 4 0) ∨
          (st = DHT_ERROR_CHECKSUM ∧
            DHT_CalculateChecksum (packedBytes (sampledBit tr) hw.samples) ≠
              (packedBytes (sampledBit tr) hw.samples).getD 4 0))) := by
  unfold GetDHTData at h
  simp only [hport, htimer] at h
  split at h
  · rename_i hw3 hwait
    have hs3 : hw3.samples = hw.samples := by
      have h1 := congrArg (fun r => r.2.samples) hwait
      simp only [(DHT_WaitForResponse_hw _ _ _ _).1, setGpio_samples] at h1
      exact h1.symm
    cases hrb : DHT_ReadBits tr fuel timer c.pin c.timeout_cycles buf hw3 with
    | none => simp [hrb] at h
    | some r =>
      obtain ⟨st4, buf1, hw4⟩ := r
      obtain ⟨hst4, hbuf1, _, _⟩ := DHT_ReadBits_some tr fuel timer c.pin c.timeout_cycles buf hw3
        hlen st4 buf1 hw4 hrb
      subst hst4
      rw [hs3] at hbuf1
      subst hbuf1
      simp only [hrb] at h
      right
      by_cases hc : DHT_CalculateChecksum (packedBytes (sampledBit tr) hw.samples) ≠
          (packedBytes (sampledBit tr) hw.samples).getD 4 0
      · rw [if_pos hc] at h
        simp only [Option.some.injEq, Prod.mk.injEq] at h
        exact ⟨h.2.1.symm, Or.inr ⟨h.1.symm, hc⟩⟩
      · rw [if_neg hc] at h
        simp only [Option.some.injEq, Prod.mk.injEq] at h
        exact ⟨h.2.1.symm, Or.inl ⟨h.1.symm, not_not.mp hc⟩⟩
  · rename_i status hw3 hne hwait
    simp only [Option.some.injEq, Prod.mk.injEq] at h
    obtain ⟨hst, hd, _⟩ := h
    subst hst
    left
    refine ⟨?_, hd.symm⟩
    have hcases := DHT_WaitForResponse_status tr
      ((hw.setGpio port (DHT_SendStartSignal (hw.gpio port) c.pin)).setGpio port
        { MODER := ((hw.setGpio port (DHT_SendStartSignal (hw.gpio port) c.pin)).gpio port).MODER &&&
            not32 (DHT_GPIO_MODER_MASK c.pin),
          OTYPER := ((hw.setGpio port (DHT_SendStartSignal (hw.gpio port) c.pin)).gpio port).OTYPER,
          ODR := ((hw.setGpio port (DHT_SendStartSignal (hw.gpio port) c.pin)).gpio port).ODR })
      c.pin c.timeout_cycles
    rw [hwait] at hcases
    rcases hcases with h1 | h1
    · exact absurd h1 hne
    · exact h1

/-- The function `GetDHTData` returns on every trace whose handshake stays within the
budget and that carries forty pulses, each wait within the fuel. -/
theorem GetDHTData_returns (tr : Trace) (fuel : Nat) (c : DHT_Config_t) (buf : List Nat)
    (hw : Hardware) (port : GPIO_Block) (timer : TIM_Block) (k1 k2 k3 : Nat) (lo hi : Nat → Nat)
    (hport : DHT_GetGPIOPort c.gpio_port = some port)
    (htimer : DHT_GetTimerInstance c.timer = some timer) (hlen : buf.length = 5)
    (h1 : levelFor tr c.pin 1 hw.polls k1) (hk1 : k1 < c.timeout_cycles)
    (h2 : levelFor tr c.pin 0 (hw.polls + k1 + 1) k2) (hk2 : k2 < c.timeout_cycles)
    (h3 : levelFor tr c.pin 1 (hw.polls + k1 + 1 + k2 + 1) k3) (hk3 : k3 < c.timeout_cycles)
    (htrain : pulseTrain tr c.pin lo hi 40 0 (hw.polls + k1 + 1 + k2 + 1 + k3 + 1))
    (hfuel : ∀ j, j < 40 → lo j < fuel ∧ hi j < fuel) :
    ∃ st hw1, GetDHTData tr fuel (some c) (some buf) hw =
        some (st, some (packedBytes (sampledBit tr) hw.samples), hw1) ∧
      st ≠ DHT_ERROR_TIMEOUT := by
  unfold GetDHTData
  simp only [hport, htimer]
  rw [DHT_WaitForResponse_ok tr _ c.pin c.timeout_cycles k1 k2 k3 (by simpa using h1) hk1
    (by simpa using h2) hk2 (by simpa using h3) hk3]
  simp only [setGpio_polls]
  obtain ⟨hw4, hrb⟩ := DHT_ReadBits_returns tr fuel timer c.pin c.timeout_cycles buf
    (((hw.setGpio port (DHT_SendStartSignal (hw.gpio port) c.pin)).setGpio port
        { MODER := ((hw.setGpio port (DHT_SendStartSignal (hw.gpio port) c.pin)).gpio port).MODER &&&
            not32 (DHT_GPIO_MODER_MASK c.pin),
          OTYPER := ((hw.setGpio port (DHT_SendStartSignal (hw.gpio port) c.pin)).gpio port).OTYPER,
          ODR := ((hw.setGpio port (DHT_SendStartSignal (hw.gpio port) c.pin)).gpio port).ODR }).setPolls
      (hw.polls + k1 + 1 + k2 + 1 + k3 + 1)) lo hi hlen (by simpa using htrain) hfuel
  simp only [setPolls_samples, setGpio_samples] at hrb
  simp only [hrb]
  split
  · exact ⟨_, _, rfl, by decide⟩
  · exact ⟨_, _, rfl, by decide⟩

theorem sampledBit_toNat (tr : Trace) (k : Nat) :
    (sampledBit tr k).toNat =
      if tr.cnt k % 2 ^ 32 % 2 ^ 16 > DHT_THRESHOLD_TICKS then 1 else 0 := by
  unfold sampledBit
  split
  · rename_i h
    rw [decide_eq_true h]
    rfl
  · rename_i h
    rw [decide_eq_false h]
    rfl

/-- Each byte of the packed buffer as the weighted sum of its eight bits. -/
theorem packedBytes_getD (tr : Trace) (s k : Nat) (hk : k < 5) :
    (packedBytes (sampledBit tr) s).getD k 0 =
      ∑ j in Finset.range 8,
        (if tr.cnt (s + (8 * k + j)) % 2 ^ 32 % 2 ^ 16 > DHT_THRESHOLD_TICKS then 1 else 0) *
          2 ^ (7 - j) := by
  have key : ∀ s1, byteOf (sampledBit tr s1) (sampledBit tr (s1 + 1)) (sampledBit tr (s1 + 2))
      (sampledBit tr (s1 + 3)) (sampledBit tr (s1 + 4)) (sampledBit tr (s1 + 5))
      (sampledBit tr (s1 + 6)) (sampledBit tr (s1 + 7)) =
      ∑ j in Finset.range 8,
        (if tr.cnt (s1 + j) % 2 ^ 32 % 2 ^ 16 > DHT_THRESHOLD_TICKS then 1 else 0) *
          2 ^ (7 - j) := by
    intro s1
    rw [byteOf_eq_sum]
    exact Finset.sum_congr rfl (fun j _ => by rw [sampledBit_toNat])
  have k0 := key s
  have k1 := key (s + 8)
  have k2 := key (s + 16)
  have k3 := key (s + 24)
  have k4 := key (s + 32)
  simp only [Nat.add_assoc, Nat.reduceAdd] at k1 k2 k3 k4
  interval_cases k
  · simpa [packedBytes] using k0
  · simpa [packedBytes, Nat.add_assoc] using k1
  · simpa [packedBytes, Nat.add_assoc] using k2
  · simpa [packedBytes, Nat.add_assoc] using k3
  · simpa [packedBytes, Nat.add_assoc] using k4

@[simp]
theorem byteOf_testBit_7 (b0 b1 b2 b3 b4 b5 b6 b7 : Bool) :
    (byteOf b0 b1 b2 b3 b4 b5 b6 b7).testBit 7 = b0 := by
  revert b0 b1 b2 b3 b4 b5 b6 b7
  decide

@[simp]
theorem byteOf_testBit_6 (b0 b1 b2 b3 b4 b5 b6 b7 : Bool) :
    (byteOf b0 b1 b2 b3 b4 b5 b6 b7).testBit 6 = b1 := by
  revert b0 b1 b2 b3 b4 b5 b6 b7
  decide

@[simp]
theorem byteOf_testBit_5 (b0 b1 b2 b3 b4 b5 b6 b7 : Bool) :
    (byteOf b0 b1 b2 b3 b4 b5 b6 b7).testBit 5 = b2 := by
  revert b0 b1 b2 b3 b4 b5 b6 b7
  decide

@[simp]
theorem byteOf_testBit_4 (b0 b1 b2 b3 b4 b5 b6 b7 : Bool) :
    (byteOf b0 b1 b2 b3 b4 b5 b6 b7).testBit 4 = b3 := by
  revert b0 b1 b2 b3 b4 b5 b6 b7
  decide

@[simp]
theorem byteOf_testBit_3 (b0 b1 b2 b3 b4 b5 b6 b7 : Bool) :
    (byteOf b0 b1 b2 b3 b4 b5 b6 b7).testBit 3 = b4 := by
  revert b0 b1 b2 b3 b4 b5 b6 b7
  decide

@[simp]
theorem byteOf_testBit_2 (b0 b1 b2 b3 b4 b5 b6 b7 : Bool) :
    (byteOf b0 b1 b2 b3 b4 b5 b6 b7).testBit 2 = b5 := by
  revert b0 b1 b2 b3 b4 b5 b6 b7
  decide

@[simp]
theorem byteOf_testBit_1 (b0 b1 b2 b3 b4 b5 b6 b7 : Bool) :
    (byteOf b0 b1 b2 b3 b4 b5 b6 b7).testBit 1 = b6 := by
  revert b0 b1 b2 b3 b4 b5 b6 b7
  decide

@[simp]
theorem byteOf_testBit_0 (b0 b1 b2 b3 b4 b5 b6 b7 : Bool) :
    (byteOf b0 b1 b2 b3 b4 b5 b6 b7).testBit 0 = b7 := by
  revert b0 b1 b2 b3 b4 b5 b6 b7
  decide

/-- The status of the handshake depends on the hardware only through the read
position. -/
theorem DHT_WaitForResponse_status_polls (tr : Trace) (hwa hwb : Hardware) (pin tc : Nat)
    (hp : hwa.polls = hwb.polls) :
    (DHT_WaitForResponse tr hwa pin tc).1 = (DHT_WaitForResponse tr hwb pin tc).1 := by
  unfold DHT_WaitForResponse
  simp only [hp]
  split_ifs <;> rfl

/-- Whether the forty bits were sampled, for every way `GetDHTData` can return with a
supported port and timer: either the handshake (from the read position of the call)
timed out, the status is `DHT_ERROR_TIMEOUT` and no counter read was made, or the
handshake passed, the status is not `DHT_ERROR_TIMEOUT` and forty counter reads were
made. -/
theorem GetDHTData_sampled (tr : Trace) (fuel : Nat) (c : DHT_Config_t) (buf : List Nat)
    (hw : Hardware) (port : GPIO_Block) (timer : TIM_Block)
    (hport : DHT_GetGPIOPort c.gpio_port = some port)
    (htimer : DHT_GetTimerInstance c.timer = some timer) (hlen : buf.length = 5)
    (st : DHT_Status_t) (d : Option (List Nat)) (hw1 : Hardware)
    (h : GetDHTData tr fuel (some c) (some buf) hw = some (st, d, hw1)) :
    (st = DHT_ERROR_TIMEOUT ∧ hw1.samples = hw.samples ∧
        ∀ hw2 : Hardware, hw2.polls = hw.polls →
          (DHT_WaitForResponse tr hw2 c.pin c.timeout_cycles).1 = DHT_ERROR_TIMEOUT) ∨
      (st ≠ DHT_ERROR_TIMEOUT ∧ hw1.samples = hw.samples + 40 ∧
        ∀ hw2 : Hardware, hw2.polls = hw.polls →
          (DHT_WaitForResponse tr hw2 c.pin c.timeout_cycles).1 = DHT_OK) := by
  unfold GetDHTData at h
  simp only [hport, htimer] at h
  split at h
  · rename_i hw3 hwait
    have hs3 : hw3.samples = hw.samples := by
      have h1 := congrArg (fun r => r.2.samples) hwait
      simp only [(DHT_WaitForResponse_hw _ _ _ _).1, setGpio_samples] at h1
      exact h1.symm
    have hst3 : ∀ hw2 : Hardware, hw2.polls = hw.polls →
        (DHT_WaitForResponse tr hw2 c.pin c.timeout_cycles).1 = DHT_OK := by
      intro hw2 hp
      have h1 := congrArg (fun r => r.1) hwait
      simp only at h1
      rw [← h1]
      exact DHT_WaitForResponse_status_polls tr _ _ c.pin c.timeout_cycles (by simp [hp])
    cases hrb : DHT_ReadBits tr fuel timer c.pin c.timeout_cycles buf hw3 with
    | none => simp [hrb] at h
    | some r =>
      obtain ⟨st4, buf1, hw4⟩ := r
      obtain ⟨hst4, _, hs4, _⟩ := DHT_ReadBits_some tr fuel timer c.pin c.timeout_cycles buf hw3
        hlen st4 buf1 hw4 hrb
      subst hst4
      simp only [hrb] at h
      right
      split at h
      · simp only [Option.some.injEq, Prod.mk.injEq] at h
        obtain ⟨hst, _, hh⟩ := h
        subst hst
        subst hh
        exact ⟨by decide, by omega, hst3⟩
      · simp only [Option.some.injEq, Prod.mk.injEq] at h
        obtain ⟨hst, _, hh⟩ := h
        subst hst
        subst hh
        exact ⟨by decide, by simp only [setGpio_samples]; omega, hst3⟩
  · rename_i status hw3 hne hwait
    simp only [Option.some.injEq, Prod.mk.injEq] at h
    obtain ⟨hst, _, hh⟩ := h
    subst hst
    subst hh
    have hs3 : hw3.samples = hw.samples := by
      have h1 := congrArg (fun r => r.2.samples) hwait
      simp only [(DHT_WaitForResponse_hw _ _ _ _).1, setGpio_samples] at h1
      exact h1.symm
    have h1 := congrArg (fun r => r.1) hwait
    simp only at h1
    have hto : status = DHT_ERROR_TIMEOUT := by
      rcases DHT_WaitForResponse_status tr
        ((hw.setGpio port (DHT_SendStartSignal (hw.gpio port) c.pin)).setGpio port
          { MODER := ((hw.setGpio port (DHT_SendStartSignal (hw.gpio port) c.pin)).gpio port).MODER &&&
              not32 (DHT_GPIO_MODER_MASK c.pin),
            OTYPER := ((hw.setGpio port (DHT_SendStartSignal (hw.gpio port) c.pin)).gpio port).OTYPER,
            ODR := ((hw.setGpio port (DHT_SendStartSignal (hw.gpio port) c.pin)).gpio port).ODR })
        c.pin c.timeout_cycles with h2 | h2
      · rw [h1] at h2
        exact absurd h2 hne
      · rw [h1] at h2
        exact h2
    left
    refine ⟨hto, hs3, fun hw2 hp => ?_⟩
    rw [← hto, ← h1]
    exact DHT_WaitForResponse_status_polls tr _ _ c.pin c.timeout_cycles (by simp [hp])

/-! ## Lines that never fall -/

theorem DHT_WaitForResponse_stuck_high (tr : Trace) (pin : Nat)
    (hhigh : ∀ p, DHT_GPIO_READ_BIT (tr.idr p) pin = 1) (N : Nat) (hw : Hardware) :
    DHT_WaitForResponse tr hw pin (N + 1) =
      (DHT_OK, hw.setPolls (hw.polls + (N + 1) + 1 + 1 + (N + 1) + 1)) := by
  have h2 : ∀ p, waitWhile tr pin 0 (N + 1) p = (N + 1, p + 1) := by
    intro p
    unfold waitWhile
    rw [if_neg (by rw [hhigh]; decide)]
  unfold DHT_WaitForResponse
  simp only
  rw [waitWhile_stuck tr pin 1 (N + 1) hw.polls (fun j _ => hhigh _)]
  simp only
  rw [if_neg (by decide), h2]
  simp only
  rw [if_neg (by omega), waitWhile_stuck tr pin 1 (N + 1) _ (fun j _ => hhigh _)]
  simp only
  rw [if_neg (by decide)]

theorem readBit_stuck_high (tr : Trace) (pin : Nat)
    (hhigh : ∀ p, DHT_GPIO_READ_BIT (tr.idr p) pin = 1)
    (fuel : Nat) (timer : TIM_Block) (i : Nat) (data : List Nat) (hw : Hardware) :
    readBit tr fuel timer pin i data hw = none := by
  unfold readBit
  simp only [setTim_polls, setPolls_polls]
  cases h1 : spinWhile tr pin 0 fuel hw.polls with
  | none => rfl
  | some p1 =>
    simp only
    rw [spinWhile_stuck tr pin 1 hhigh]

/-- On a line that reads high at every poll `GetDHTData` passes the handshake and then
waits for ever for the end of the first pulse, whatever the budget. -/
theorem GetDHTData_stuck_high (tr : Trace) (c : DHT_Config_t) (N : Nat)
    (hN : c.timeout_cycles = N + 1)
    (hhigh : ∀ p, DHT_GPIO_READ_BIT (tr.idr p) c.pin = 1)
    (port : GPIO_Block) (timer : TIM_Block)
    (hport : DHT_GetGPIOPort c.gpio_port = some port)
    (htimer : DHT_GetTimerInstance c.timer = some timer)
    (fuel : Nat) (buf : List Nat) (hw : Hardware) :
    GetDHTData tr fuel (some c) (some buf) hw = none := by
  unfold GetDHTData
  simp only [hport, htimer, hN, DHT_WaitForResponse_stuck_high tr c.pin hhigh]
  unfold DHT_ReadBits readBitsLoop
  rw [readBit_stuck_high tr c.pin hhigh]

/-! ## Properties -/

/-- C1 (evaluation of the code where it departs from the claim): on a line that stays
high forever `DHT_WaitForResponse` returns `DHT_OK` for every budget of at least one
poll, not `DHT_ERROR_TIMEOUT`, and `GetDHTData` then never returns; and on a line that
fails to go low within the budget of one poll but toggles later, `GetDHTData` returns
`DHT_OK`. -/
theorem DHT_WaitForResponse_misses_timeout :
    (∀ N, (DHT_WaitForResponse stuckHighTrace idleHardware 3 (N + 1)).1 = DHT_OK) ∧
    (∀ fuel N, GetDHTData stuckHighTrace fuel
      (some { gpio_port := DHT_GPIO_PORT_A, pin := 3, timer := DHT_TIMER_3,
              timeout_cycles := N + 1 })
      (some [0, 0, 0, 0, 0]) idleHardware = none) ∧
    (GetDHTData sluggishTrace 1 (some hastyConfig) (some [0, 0, 0, 0, 0]) idleHardware).map
      (fun r => (r.1, r.2.1)) = some (DHT_OK, some [0, 0, 0, 0, 0]) := by
  have hhigh : ∀ p, DHT_GPIO_READ_BIT (stuckHighTrace.idr p) 3 = 1 := by
    intro p
    show DHT_GPIO_READ_BIT 0xFFFF 3 = 1
    decide
  refine ⟨fun N => ?_, fun fuel N => ?_, by decide⟩
  · rw [DHT_WaitForResponse_stuck_high stuckHighTrace 3 hhigh]
  · exact GetDHTData_stuck_high stuckHighTrace
      { gpio_port := DHT_GPIO_PORT_A, pin := 3, timer := DHT_TIMER_3, timeout_cycles := N + 1 }
      N rfl hhigh GPIOA TIM3 rfl rfl fuel _ _

/-- C2: whenever `GetDHTData` returns for a valid configuration, (1) it returns `DHT_OK`
only with a buffer whose fifth byte is the sum of the first four modulo 256; (2) whenever
the forty bits were sampled (forty counter reads were made during the call), the buffer
holds the bytes decoded from them, and when these violate the equation the status is
`DHT_ERROR_CHECKSUM`; (3) the forty bits are sampled whenever the handshake, run from
the read position at which the call starts, passes. -/
theorem GetDHTData_checksum_gate (tr : Trace) (fuel : Nat) (c : DHT_Config_t) (buf : List Nat)
    (hw : Hardware) (port : GPIO_Block) (timer : TIM_Block)
    (_hvalid : DHT_ValidateConfig (some c) = DHT_OK)
    (hport : DHT_GetGPIOPort c.gpio_port = some port)
    (htimer : DHT_GetTimerInstance c.timer = some timer) (hlen : buf.length = 5)
    (st : DHT_Status_t) (d : List Nat) (hw1 : Hardware)
    (h : GetDHTData tr fuel (some c) (some buf) hw = some (st, some d, hw1)) :
    (st = DHT_OK →
      d.getD 4 0 = (d.getD 0 0 + d.getD 1 0 + d.getD 2 0 + d.getD 3 0) % 256) ∧
    (hw1.samples = hw.samples + 40 →
      (∀ k, k < 5 → d.getD k 0 = ∑ j in Finset.range 8,
        (if tr.cnt (hw.samples + (8 * k + j)) % 2 ^ 32 % 2 ^ 16 > DHT_THRESHOLD_TICKS
          then 1 else 0) * 2 ^ (7 - j)) ∧
      (d.getD 4 0 ≠ (d.getD 0 0 + d.getD 1 0 + d.getD 2 0 + d.getD 3 0) % 256 →
        st = DHT_ERROR_CHECKSUM)) ∧
    (∀ hw2 : Hardware, hw2.polls = hw.polls →
      (DHT_WaitForResponse tr hw2 c.pin c.timeout_cycles).1 = DHT_OK →
      hw1.samples = hw.samples + 40) := by
  have hsampled := GetDHTData_sampled tr fuel c buf hw port timer hport htimer hlen st (some d)
    hw1 h
  rcases GetDHTData_some tr fuel c buf hw port timer hport htimer hlen st (some d) hw1 h with
    ⟨hst, _⟩ | ⟨hd, hv⟩
  · subst hst
    rcases hsampled with ⟨_, hs, hto⟩ | ⟨hne, _, _⟩
    · refine ⟨fun h0 => absurd h0 (by decide), fun h0 => ?_, fun hw2 hp hok => ?_⟩
      · omega
      · rw [hto hw2 hp] at hok
        exact absurd hok (by decide)
    · exact absurd rfl hne
  · simp only [Option.some.injEq] at hd
    subst hd
    rw [DHT_CalculateChecksum_eq] at hv
    have hs40 : hw1.samples = hw.samples + 40 := by
      rcases hsampled with ⟨hto, _, _⟩ | ⟨_, hs, _⟩
      · rcases hv with ⟨hst, _⟩ | ⟨hst, _⟩
        · rw [hst] at hto
          exact absurd hto (by decide)
        · rw [hst] at hto
          exact absurd hto (by decide)
      · exact hs
    rcases hv with ⟨hst, heq⟩ | ⟨hst, hne⟩
    · subst hst
      exact ⟨fun _ => heq.symm,
        fun _ => ⟨fun k hk => packedBytes_getD tr hw.samples k hk,
          fun hbad => absurd heq.symm hbad⟩,
        fun _ _ _ => hs40⟩
    · subst hst
      exact ⟨fun h0 => absurd h0 (by decide),
        fun _ => ⟨fun k hk => packedBytes_getD tr hw.samples k hk, fun _ => rfl⟩,
        fun _ _ _ => hs40⟩

/-- C2, on a concrete run: the line toggles at every read, only the last pulse is long,
the decoded bytes 0, 0, 0, 0, 1 violate the checksum equation. -/
theorem GetDHTData_checksum_gate_witness :
    (DHT_ERROR_CHECKSUM = DHT_OK →
      [0, 0, 0, 0, 1].getD 4 0 = ([0, 0, 0, 0, 1].getD 0 0 + [0, 0, 0, 0, 1].getD 1 0 +
        [0, 0, 0, 0, 1].getD 2 0 + [0, 0, 0, 0, 1].getD 3 0) % 256) ∧
    (corruptRunHardware.samples = readyHardware.samples + 40 →
      (∀ k, k < 5 → [0, 0, 0, 0, 1].getD k 0 = ∑ j in Finset.range 8,
        (if corruptTrace.cnt (readyHardware.samples + (8 * k + j)) % 2 ^ 32 % 2 ^ 16 >
          DHT_THRESHOLD_TICKS then 1 else 0) * 2 ^ (7 - j)) ∧
      ([0, 0, 0, 0, 1].getD 4 0 ≠ ([0, 0, 0, 0, 1].getD 0 0 + [0, 0, 0, 0, 1].getD 1 0 +
        [0, 0, 0, 0, 1].getD 2 0 + [0, 0, 0, 0, 1].getD 3 0) % 256 →
        DHT_ERROR_CHECKSUM = DHT_ERROR_CHECKSUM)) ∧
    (∀ hw2 : Hardware, hw2.polls = readyHardware.polls →
      (DHT_WaitForResponse corruptTrace hw2 sensorConfig.pin sensorConfig.timeout_cycles).1 =
        DHT_OK →
      corruptRunHardware.samples = readyHardware.samples + 40) :=
  GetDHTData_checksum_gate corruptTrace 1 sensorConfig [9, 9, 9, 9, 9] readyHardware GPIOA TIM3
    (by decide) (by decide) (by decide) (by decide) DHT_ERROR_CHECKSUM [0, 0, 0, 0, 1]
    corruptRunHardware (by decide)

/-- C3: end-to-end success.  For a valid configuration, any five-byte buffer, and a
trace whose three handshake transitions each show up within the budget (after `k1`,
`k2`, `k3` polls of the unwanted level, each fewer than `timeout_cycles`) and that
carries forty pulses whose widths (the counter value as held by the 16-bit
`pulse_width`) classify, a width above `DHT_THRESHOLD_TICKS` meaning 1, to bits packing,
most significant bit first, to bytes `b 0 .. b 4` with
`b 4 = (b 0 + b 1 + b 2 + b 3) mod 256`:
`GetDHTData` returns `DHT_OK` and the buffer is exactly those five bytes, for every
fuel that covers the longest wait of the bit loop. -/
theorem GetDHTData_success (tr : Trace) (fuel : Nat) (c : DHT_Config_t) (buf : List Nat)
    (hw : Hardware) (port : GPIO_Block) (timer : TIM_Block) (k1 k2 k3 : Nat) (lo hi : Nat → Nat)
    (b : Nat → Nat)
    (_hvalid : DHT_ValidateConfig (some c) = DHT_OK)
    (hport : DHT_GetGPIOPort c.gpio_port = some port)
    (htimer : DHT_GetTimerInstance c.timer = some timer) (hlen : buf.length = 5)
    (h1 : levelFor tr c.pin 1 hw.polls k1) (hk1 : k1 < c.timeout_cycles)
    (h2 : levelFor tr c.pin 0 (hw.polls + k1 + 1) k2) (hk2 : k2 < c.timeout_cycles)
    (h3 : levelFor tr c.pin 1 (hw.polls + k1 + 1 + k2 + 1) k3) (hk3 : k3 < c.timeout_cycles)
    (htrain : pulseTrain tr c.pin lo hi 40 0 (hw.polls + k1 + 1 + k2 + 1 + k3 + 1))
    (hfuel : ∀ j, j < 40 → lo j < fuel ∧ hi j < fuel)
    (hb : ∀ k, k < 5 → b k = ∑ j in Finset.range 8,
      (if tr.cnt (hw.samples + (8 * k + j)) % 2 ^ 32 % 2 ^ 16 > DHT_THRESHOLD_TICKS
        then 1 else 0) * 2 ^ (7 - j))
    (hsum : b 4 = (b 0 + b 1 + b 2 + b 3) % 256) :
    ∃ hw1, GetDHTData tr fuel (some c) (some buf) hw =
      some (DHT_OK, some [b 0, b 1, b 2, b 3, b 4], hw1) := by
  obtain ⟨st, hw1, hret, hnt⟩ := GetDHTData_returns tr fuel c buf hw port timer k1 k2 k3 lo hi
    hport htimer hlen h1 hk1 h2 hk2 h3 hk3 htrain hfuel
  have hbytes : packedBytes (sampledBit tr) hw.samples = [b 0, b 1, b 2, b 3, b 4] := by
    have e0 := packedBytes_getD tr hw.samples 0 (by decide)
    have e1 := packedBytes_getD tr hw.samples 1 (by decide)
    have e2 := packedBytes_getD tr hw.samples 2 (by decide)
    have e3 := packedBytes_getD tr hw.samples 3 (by decide)
    have e4 := packedBytes_getD tr hw.samples 4 (by decide)
    rw [← hb 0 (by decide)] at e0
    rw [← hb 1 (by decide)] at e1
    rw [← hb 2 (by decide)] at e2
    rw [← hb 3 (by decide)] at e3
    rw [← hb 4 (by decide)] at e4
    simp only [packedBytes, List.getD_cons_zero, List.getD_cons_succ] at e0 e1 e2 e3 e4
    simp only [packedBytes, e0, e1, e2, e3, e4]
  rw [hbytes] at hret
  rcases GetDHTData_some tr fuel c buf hw port timer hport htimer hlen st _ hw1 hret with
    ⟨hst, _⟩ | ⟨_, hv⟩
  · exact absurd hst hnt
  · rw [hbytes, DHT_CalculateChecksum_eq] at hv
    rcases hv with ⟨hst, _⟩ | ⟨_, hne⟩
    · subst hst
      exact ⟨hw1, hret⟩
    · exact absurd hsum.symm hne

/-- C3, on a concrete run: handshake at once, forty pulses of which bits 7 and 39 are
long; the buffer 9, 9, 9, 9, 9 becomes 1, 0, 0, 0, 1. -/
theorem GetDHTData_success_witness :
    ∃ hw1, GetDHTData goodTrace 1 (some sensorConfig) (some [9, 9, 9, 9, 9]) readyHardware =
      some (DHT_OK, some [1, 0, 0, 0, 1], hw1) :=
  GetDHTData_success goodTrace 1 sensorConfig [9, 9, 9, 9, 9] readyHardware GPIOA TIM3 0 0 0
    (fun _ => 0) (fun _ => 0) (fun k => [1, 0, 0, 0, 1].getD k 0)
    (by decide) (by decide) (by decide) (by decide)
    (by decide) (by decide) (by decide) (by decide) (by decide) (by decide)
    (by decide) (by decide)
    (by decide)
    (by decide)

/-- C4: bit-packing order.  On every trace that carries forty pulses, and for every prior
content of the five-byte buffer, `DHT_ReadBits` returns and byte `k` of the buffer is the
sum over `j < 8` of bit `8k + j` times `2^(7-j)`: most significant bit first, bytes in
transaction order, nothing left of the previous content. -/
theorem DHT_ReadBits_packing (tr : Trace) (fuel : Nat) (timer : TIM_Block) (pin tc : Nat)
    (data : List Nat) (hw : Hardware) (lo hi : Nat → Nat) (hlen : data.length = 5)
    (htrain : pulseTrain tr pin lo hi 40 0 hw.polls)
    (hfuel : ∀ j, j < 40 → lo j < fuel ∧ hi j < fuel) :
    ∃ data1 hw1, DHT_ReadBits tr fuel timer pin tc data hw = some (DHT_OK, data1, hw1) ∧
      data1.length = 5 ∧
      ∀ k, k < 5 → data1.getD k 0 = ∑ j in Finset.range 8,
        (if tr.cnt (hw.samples + (8 * k + j)) % 2 ^ 32 % 2 ^ 16 > DHT_THRESHOLD_TICKS
          then 1 else 0) * 2 ^ (7 - j) := by
  obtain ⟨hw1, hrb⟩ := DHT_ReadBits_returns tr fuel timer pin tc data hw lo hi hlen htrain hfuel
  exact ⟨_, hw1, hrb, rfl, fun k hk => packedBytes_getD tr hw.samples k hk⟩

/-- C4, on a concrete run: forty pulses read into a buffer that held 9, 9, 9, 9, 9. -/
theorem DHT_ReadBits_packing_witness :
    ∃ data1 hw1, DHT_ReadBits goodTrace 2 TIM3 3 5 [9, 9, 9, 9, 9] idleHardware =
        some (DHT_OK, data1, hw1) ∧
      data1.length = 5 ∧
      ∀ k, k < 5 → data1.getD k 0 = ∑ j in Finset.range 8,
        (if goodTrace.cnt (idleHardware.samples + (8 * k + j)) % 2 ^ 32 % 2 ^ 16 >
          DHT_THRESHOLD_TICKS then 1 else 0) * 2 ^ (7 - j) :=
  DHT_ReadBits_packing goodTrace 2 TIM3 3 5 [9, 9, 9, 9, 9] idleHardware
    (fun i => if i = 0 then 1 else 0) (fun _ => 0) (by decide) (by decide) (by decide)

/-- C5 as the code has it: the bit recorded for pulse `i` is 1 exactly when the counter
value, truncated to the 16 bits of `pulse_width`, exceeds `DHT_THRESHOLD_TICKS`; hence
for every count below `2^16` exactly when the count exceeds the threshold. -/
theorem DHT_ReadBits_classifies (tr : Trace) (fuel : Nat) (timer : TIM_Block) (pin tc : Nat)
    (data : List Nat) (hw : Hardware) (hlen : data.length = 5)
    (st : DHT_Status_t) (data1 : List Nat) (hw1 : Hardware)
    (h : DHT_ReadBits tr fuel timer pin tc data hw = some (st, data1, hw1))
    (i : Nat) (hi : i < 40) :
    ((data1.getD (i / 8) 0).testBit (7 - i % 8) = true ↔
      tr.cnt (hw.samples + i) % 2 ^ 32 % 2 ^ 16 > DHT_THRESHOLD_TICKS) ∧
    (tr.cnt (hw.samples + i) < 2 ^ 16 →
      ((data1.getD (i / 8) 0).testBit (7 - i % 8) = true ↔
        tr.cnt (hw.samples + i) > DHT_THRESHOLD_TICKS)) := by
  obtain ⟨_, hd, _, _⟩ := DHT_ReadBits_some tr fuel timer pin tc data hw hlen st data1 hw1 h
  subst hd
  have hmain : (((packedBytes (sampledBit tr) hw.samples).getD (i / 8) 0).testBit (7 - i % 8) = true ↔
      tr.cnt (hw.samples + i) % 2 ^ 32 % 2 ^ 16 > DHT_THRESHOLD_TICKS) := by
    have hs : ∀ k, (sampledBit tr k = true ↔
        tr.cnt k % 2 ^ 32 % 2 ^ 16 > DHT_THRESHOLD_TICKS) := by
      intro k
      unfold sampledBit
      exact decide_eq_true_iff
    rw [← hs]
    interval_cases i <;> simp [packedBytes, -Nat.testBit_zero]
  refine ⟨hmain, fun hlt => ?_⟩
  rw [hmain]
  have e : tr.cnt (hw.samples + i) % 2 ^ 32 % 2 ^ 16 = tr.cnt (hw.samples + i) := by omega
  rw [e]

/-- C5, on a concrete run: pulse 7 measures 3000 ticks and is recorded as 1. -/
theorem DHT_ReadBits_classifies_witness :
    (([1, 0, 0, 0, 1].getD (7 / 8) 0).testBit (7 - 7 % 8) = true ↔
      goodTrace.cnt (idleHardware.samples + 7) % 2 ^ 32 % 2 ^ 16 > DHT_THRESHOLD_TICKS) ∧
    (goodTrace.cnt (idleHardware.samples + 7) < 2 ^ 16 →
      (([1, 0, 0, 0, 1].getD (7 / 8) 0).testBit (7 - 7 % 8) = true ↔
        goodTrace.cnt (idleHardware.samples + 7) > DHT_THRESHOLD_TICKS)) :=
  DHT_ReadBits_classifies goodTrace 2 TIM3 3 5 [9, 9, 9, 9, 9] idleHardware (by decide)
    DHT_OK [1, 0, 0, 0, 1]
    (((DHT_ReadBits goodTrace 2 TIM3 3 5 [9, 9, 9, 9, 9] idleHardware).map
      (fun r => r.2.2)).getD idleHardware)
    (by decide) 7 (by decide)

/-- C5 fails as stated: a counter read of 65536 ticks, a 32-bit count above the
threshold, is recorded as bit 0. -/
theorem DHT_ReadBits_wide_count_is_zero :
    (DHT_ReadBits wideTrace 2 TIM3 3 5 [0, 0, 0, 0, 0] idleHardware).map
        (fun r => (r.2.1.getD (0 / 8) 0).testBit (7 - 0 % 8)) = some false ∧
      wideTrace.cnt (idleHardware.samples + 0) = 65536 ∧
      wideTrace.cnt (idleHardware.samples + 0) < 2 ^ 32 ∧
      wideTrace.cnt (idleHardware.samples + 0) > DHT_THRESHOLD_TICKS := by
  decide

theorem DHT_GetGPIOPort_none (p : Nat) :
    DHT_GetGPIOPort p = none ↔
      (p ≠ DHT_GPIO_PORT_A ∧ p ≠ DHT_GPIO_PORT_B ∧ p ≠ DHT_GPIO_PORT_F) := by
  unfold DHT_GetGPIOPort
  split_ifs <;> simp [*]

theorem DHT_GetTimerInstance_none (t : Nat) :
    DHT_GetTimerInstance t = none ↔
      (t ≠ DHT_TIMER_3 ∧ t ≠ DHT_TIMER_7 ∧ t ≠ DHT_TIMER_15 ∧ t ≠ DHT_TIMER_16 ∧
        t ≠ DHT_TIMER_17) := by
  unfold DHT_GetTimerInstance
  split_ifs <;> simp [*]

/-- C6: `DHT_Init` returns an error status exactly when the configuration pointer is
null, or the pin exceeds 15, or the timeout is zero, or the port is none of A, B, F, or
the timer is none of 3, 7, 15, 16, 17; and whenever it returns an error the whole
hardware state (GPIO, timer and clock-enable registers) is unchanged. -/
theorem DHT_Init_rejects (config : Option DHT_Config_t) (hw : Hardware) :
    ((DHT_Init config hw).1 ≠ DHT_OK ↔
      (config = none ∨ ∃ c, config = some c ∧
        (c.pin > 15 ∨ c.timeout_cycles = 0 ∨
          (c.gpio_port ≠ DHT_GPIO_PORT_A ∧ c.gpio_port ≠ DHT_GPIO_PORT_B ∧
            c.gpio_port ≠ DHT_GPIO_PORT_F) ∨
          (c.timer ≠ DHT_TIMER_3 ∧ c.timer ≠ DHT_TIMER_7 ∧ c.timer ≠ DHT_TIMER_15 ∧
            c.timer ≠ DHT_TIMER_16 ∧ c.timer ≠ DHT_TIMER_17)))) ∧
    ((DHT_Init config hw).1 ≠ DHT_OK → (DHT_Init config hw).2 = hw) := by
  cases config with
  | none =>
    refine ⟨⟨fun _ => Or.inl rfl, fun _ => by simp [DHT_Init, DHT_ValidateConfig]⟩, fun _ => ?_⟩
    simp [DHT_Init, DHT_ValidateConfig]
  | some c =>
    simp only [reduceCtorEq, Option.some.injEq, exists_eq_left', false_or]
    rw [← DHT_GetGPIOPort_none, ← DHT_GetTimerInstance_none]
    unfold DHT_Init DHT_ValidateConfig
    by_cases hpin : c.pin > 15
    · simp [hpin]
    · by_cases hto : c.timeout_cycles = 0
      · simp [hpin, hto]
      · cases hp : DHT_GetGPIOPort c.gpio_port <;> cases ht : DHT_GetTimerInstance c.timer <;>
          simp [hpin, hto, hp, ht]

/-- C6, on a concrete input: a zero timeout is rejected and the hardware is untouched. -/
theorem DHT_Init_rejects_witness :
    (DHT_Init (some { sensorConfig with timeout_cycles := 0 }) readyHardware).1 ≠ DHT_OK ∧
      (DHT_Init (some { sensorConfig with timeout_cycles := 0 }) readyHardware).2 =
        readyHardware :=
  ⟨by decide,
    (DHT_Init_rejects (some { sensorConfig with timeout_cycles := 0 }) readyHardware).2
      (by decide)⟩

/-- C7 (evaluation of the code where it departs from the claim): when `GetDHTData`
returns `DHT_ERROR_TIMEOUT` or `DHT_ERROR_CHECKSUM` the two MODER bits of the pin are 00
(input mode), not 01; only the `DHT_OK` return leaves them at 01.  The ODR bit of the
pin is 1 in all three cases. -/
theorem GetDHTData_error_leaves_input_mode :
    (GetDHTData lateTrace 1 (some hastyConfig) (some [9, 9, 9, 9, 9]) readyHardware).map
        (fun r => (r.1, ((r.2.2.gpio GPIOA).MODER >>> DHT_GPIO_MODER_SHIFT 3) &&& 3,
          ((r.2.2.gpio GPIOA).ODR >>> 3) &&& 1)) = some (DHT_ERROR_TIMEOUT, 0, 1) ∧
    (GetDHTData corruptTrace 1 (some sensorConfig) (some [9, 9, 9, 9, 9]) readyHardware).map
        (fun r => (r.1, ((r.2.2.gpio GPIOA).MODER >>> DHT_GPIO_MODER_SHIFT 3) &&& 3,
          ((r.2.2.gpio GPIOA).ODR >>> 3) &&& 1)) = some (DHT_ERROR_CHECKSUM, 0, 1) ∧
    (GetDHTData goodTrace 1 (some sensorConfig) (some [9, 9, 9, 9, 9]) readyHardware).map
        (fun r => (r.1, ((r.2.2.gpio GPIOA).MODER >>> DHT_GPIO_MODER_SHIFT 3) &&& 3,
          ((r.2.2.gpio GPIOA).ODR >>> 3) &&& 1)) = some (DHT_OK, 1, 1) := by
  decide

/-- C8 fails as stated: a run that returns `DHT_ERROR_CHECKSUM` leaves the received
bytes 0, 0, 0, 0, 1 in the caller's buffer, which held 9, 9, 9, 9, 9 before the call. -/
theorem GetDHTData_checksum_error_overwrites :
    (GetDHTData corruptTrace 1 (some sensorConfig) (some [9, 9, 9, 9, 9]) readyHardware).map
        (fun r => (r.1, r.2.1)) = some (DHT_ERROR_CHECKSUM, some [0, 0, 0, 0, 1]) ∧
      [0, 0, 0, 0, 1] ≠ [9, 9, 9, 9, 9] := by
  decide

/-- C8 as the code has it: whenever `GetDHTData` returns `DHT_ERROR_CHECKSUM`, the
caller's buffer holds, whatever it held before, the five bytes decoded from the forty
sampled bits, and these violate the checksum equation. -/
theorem GetDHTData_checksum_error_buffer (tr : Trace) (fuel : Nat) (c : DHT_Config_t)
    (buf : List Nat) (hw : Hardware) (port : GPIO_Block) (timer : TIM_Block)
    (_hvalid : DHT_ValidateConfig (some c) = DHT_OK)
    (hport : DHT_GetGPIOPort c.gpio_port = some port)
    (htimer : DHT_GetTimerInstance c.timer = some timer) (hlen : buf.length = 5)
    (d : Option (List Nat)) (hw1 : Hardware)
    (h : GetDHTData tr fuel (some c) (some buf) hw = some (DHT_ERROR_CHECKSUM, d, hw1)) :
    ∃ d1, d = some d1 ∧ d1.length = 5 ∧
      (∀ k, k < 5 → d1.getD k 0 = ∑ j in Finset.range 8,
        (if tr.cnt (hw.samples + (8 * k + j)) % 2 ^ 32 % 2 ^ 16 > DHT_THRESHOLD_TICKS
          then 1 else 0) * 2 ^ (7 - j)) ∧
      d1.getD 4 0 ≠ (d1.getD 0 0 + d1.getD 1 0 + d1.getD 2 0 + d1.getD 3 0) % 256 := by
  rcases GetDHTData_some tr fuel c buf hw port timer hport htimer hlen _ d hw1 h with
    ⟨hst, _⟩ | ⟨hd, hv⟩
  · exact absurd hst (by decide)
  · rw [DHT_CalculateChecksum_eq] at hv
    rcases hv with ⟨hst, _⟩ | ⟨_, hne⟩
    · exact absurd hst (by decide)
    · exact ⟨_, hd, rfl, fun k hk => packedBytes_getD tr hw.samples k hk, fun e => hne e.symm⟩

/-- C8 as the code has it, on a concrete run. -/
theorem GetDHTData_checksum_error_buffer_witness :
    ∃ d1, some [0, 0, 0, 0, 1] = some d1 ∧ d1.length = 5 ∧
      (∀ k, k < 5 → d1.getD k 0 = ∑ j in Finset.range 8,
        (if corruptTrace.cnt (readyHardware.samples + (8 * k + j)) % 2 ^ 32 % 2 ^ 16 >
          DHT_THRESHOLD_TICKS then 1 else 0) * 2 ^ (7 - j)) ∧
      d1.getD 4 0 ≠ (d1.getD 0 0 + d1.getD 1 0 + d1.getD 2 0 + d1.getD 3 0) % 256 :=
  GetDHTData_checksum_error_buffer corruptTrace 1 sensorConfig [9, 9, 9, 9, 9] readyHardware
    GPIOA TIM3 (by decide) (by decide) (by decide) (by decide) (some [0, 0, 0, 0, 1])
    (((GetDHTData corruptTrace 1 (some sensorConfig) (some [9, 9, 9, 9, 9]) readyHardware).map
      (fun r => r.2.2)).getD idleHardware)
    (by decide)

set_option maxRecDepth 100000 in
theorem flipBit_cases :
    ∀ j, j < 8 → ∀ a, a < 256 →
      flipBit a j < 256 ∧ (flipBit a j = a + 2 ^ j ∨ flipBit a j + 2 ^ j = a) := by
  unfold flipBit
  decide

/-- C9: checksum law.  For every four-byte payload the checksum is the sum of the bytes
modulo 256 and the buffer made of the payload and its checksum passes the comparison of
`GetDHTData`; and flipping any single bit of any payload byte, or of the checksum
byte, makes the comparison fail. -/
theorem DHT_CalculateChecksum_law (p0 p1 p2 p3 : Nat)
    (h0 : p0 < 256) (h1 : p1 < 256) (h2 : p2 < 256) (h3 : p3 < 256) :
    DHT_CalculateChecksum [p0, p1, p2, p3] = (p0 + p1 + p2 + p3) % 256 ∧
    DHT_CalculateChecksum [p0, p1, p2, p3, DHT_CalculateChecksum [p0, p1, p2, p3]] =
      [p0, p1, p2, p3, DHT_CalculateChecksum [p0, p1, p2, p3]].getD 4 0 ∧
    ∀ j, j < 8 →
      DHT_CalculateChecksum [flipBit p0 j, p1, p2, p3, DHT_CalculateChecksum [p0, p1, p2, p3]] ≠
        [flipBit p0 j, p1, p2, p3, DHT_CalculateChecksum [p0, p1, p2, p3]].getD 4 0 ∧
      DHT_CalculateChecksum [p0, flipBit p1 j, p2, p3, DHT_CalculateChecksum [p0, p1, p2, p3]] ≠
        [p0, flipBit p1 j, p2, p3, DHT_CalculateChecksum [p0, p1, p2, p3]].getD 4 0 ∧
      DHT_CalculateChecksum [p0, p1, flipBit p2 j, p3, DHT_CalculateChecksum [p0, p1, p2, p3]] ≠
        [p0, p1, flipBit p2 j, p3, DHT_CalculateChecksum [p0, p1, p2, p3]].getD 4 0 ∧
      DHT_CalculateChecksum [p0, p1, p2, flipBit p3 j, DHT_CalculateChecksum [p0, p1, p2, p3]] ≠
        [p0, p1, p2, flipBit p3 j, DHT_CalculateChecksum [p0, p1, p2, p3]].getD 4 0 ∧
      DHT_CalculateChecksum
          [p0, p1, p2, p3, flipBit (DHT_CalculateChecksum [p0, p1, p2, p3]) j] ≠
        [p0, p1, p2, p3, flipBit (DHT_CalculateChecksum [p0, p1, p2, p3]) j].getD 4 0 := by
  simp only [DHT_CalculateChecksum_eq, List.getD_cons_zero, List.getD_cons_succ]
  refine ⟨trivial, trivial, fun j hj => ?_⟩
  have f0 := flipBit_cases j hj p0 h0
  have f1 := flipBit_cases j hj p1 h1
  have f2 := flipBit_cases j hj p2 h2
  have f3 := flipBit_cases j hj p3 h3
  have fc := flipBit_cases j hj ((p0 + p1 + p2 + p3) % 256) (Nat.mod_lt _ (by decide))
  have hpos : 0 < 2 ^ j := Nat.two_pow_pos j
  have hle : 2 ^ j ≤ 2 ^ 7 := Nat.pow_le_pow_right (by decide) (by omega)
  generalize flipBit p0 j = q0 at f0 ⊢
  generalize flipBit p1 j = q1 at f1 ⊢
  generalize flipBit p2 j = q2 at f2 ⊢
  generalize flipBit p3 j = q3 at f3 ⊢
  generalize flipBit ((p0 + p1 + p2 + p3) % 256) j = qc at fc ⊢
  generalize (2 : Nat) ^ j = w at *
  refine ⟨?_, ?_, ?_, ?_, ?_⟩ <;> omega

/-- C9, on a concrete payload. -/
theorem DHT_CalculateChecksum_law_witness :
    DHT_CalculateChecksum [1, 2, 3, 250] = (1 + 2 + 3 + 250) % 256 :=
  (DHT_CalculateChecksum_law 1 2 3 250 (by decide) (by decide) (by decide) (by decide)).1

/-- C10 fails as stated: an unsupported port, an unsupported timer and a zero timeout do
not yield three different status values from `DHT_Init`. -/
theorem DHT_Init_config_errors_coincide :
    ¬ ((DHT_Init (some { sensorConfig with gpio_port := 7 }) idleHardware).1 ≠
          (DHT_Init (some { sensorConfig with timer := 9 }) idleHardware).1 ∧
        (DHT_Init (some { sensorConfig with gpio_port := 7 }) idleHardware).1 ≠
          (DHT_Init (some { sensorConfig with timeout_cycles := 0 }) idleHardware).1 ∧
        (DHT_Init (some { sensorConfig with timer := 9 }) idleHardware).1 ≠
          (DHT_Init (some { sensorConfig with timeout_cycles := 0 }) idleHardware).1) := by
  decide

/-- C10 as the code has it: an unsupported port, an unsupported timer and a zero timeout
all make `DHT_Init` return the one status `DHT_ERROR_INVALID_CONFIG`, and the three
statuses `DHT_ERROR_INVALID_CONFIG`, `DHT_ERROR_TIMEOUT`, `DHT_ERROR_CHECKSUM` have
pairwise different values, none of them the value of `DHT_OK`. -/
theorem DHT_Init_config_error_status (c : DHT_Config_t) (hw : Hardware)
    (h : DHT_GetGPIOPort c.gpio_port = none ∨ DHT_GetTimerInstance c.timer = none ∨
      c.timeout_cycles = 0) :
    (DHT_Init (some c) hw).1 = DHT_ERROR_INVALID_CONFIG ∧
      DHT_ERROR_INVALID_CONFIG.code ≠ DHT_ERROR_TIMEOUT.code ∧
      DHT_ERROR_INVALID_CONFIG.code ≠ DHT_ERROR_CHECKSUM.code ∧
      DHT_ERROR_TIMEOUT.code ≠ DHT_ERROR_CHECKSUM.code ∧
      DHT_ERROR_INVALID_CONFIG.code ≠ DHT_OK.code ∧
      DHT_ERROR_TIMEOUT.code ≠ DHT_OK.code ∧
      DHT_ERROR_CHECKSUM.code ≠ DHT_OK.code := by
  refine ⟨?_, by decide, by decide, by decide, by decide, by decide, by decide⟩
  unfold DHT_Init DHT_ValidateConfig
  by_cases hpin : c.pin > 15
  · simp [hpin]
  · by_cases hto : c.timeout_cycles = 0
    · simp [hpin, hto]
    · rcases h with hp | ht | h0
      · simp [hpin, hto, hp]
      · cases hp : DHT_GetGPIOPort c.gpio_port <;> simp [hpin, hto, hp, ht]
      · exact absurd h0 hto

/-- C10 as the code has it, on a concrete input: an unsupported timer. -/
theorem DHT_Init_config_error_status_witness :
    (DHT_Init (some { sensorConfig with timer := 9 }) idleHardware).1 =
        DHT_ERROR_INVALID_CONFIG ∧
      DHT_ERROR_INVALID_CONFIG.code ≠ DHT_ERROR_TIMEOUT.code ∧
      DHT_ERROR_INVALID_CONFIG.code ≠ DHT_ERROR_CHECKSUM.code ∧
      DHT_ERROR_TIMEOUT.code ≠ DHT_ERROR_CHECKSUM.code ∧
      DHT_ERROR_INVALID_CONFIG.code ≠ DHT_OK.code ∧
      DHT_ERROR_TIMEOUT.code ≠ DHT_OK.code ∧
      DHT_ERROR_CHECKSUM.code ≠ DHT_OK.code :=
  DHT_Init_config_error_status { sensorConfig with timer := 9 } idleHardware
    (Or.inr (Or.inl (by decide)))

end DHT
